import Mathlib

/-!
Shallow embedding of the valta analytics core (P&L parser, account mapper,
startup metrics engine, waterfall calculator) and proofs about the claims
made by its specification.  Numeric cells are modelled with exact rationals;
nullable cells with `Option ℚ`; Python dicts with insertion-ordered
association lists.
-/

namespace Valta

attribute [local semireducible] Rat.add Rat.sub Rat.mul Rat.inv Rat.ofScientific

/-- Banker's rounding of a rational to the nearest integer (ties to even),
mirroring Python's `round` on exact values. -/
def roundHalfEven (q : ℚ) : ℤ :=
  let f : ℤ := ⌊q⌋
  let r : ℚ := q - (f : ℚ)
  if r < 1/2 then f
  else if r > 1/2 then f + 1
  else if f % 2 = 0 then f else f + 1

/-- Python `round(x, 2)`. -/
def round2 (q : ℚ) : ℚ := (roundHalfEven (q * 100) : ℚ) / 100

/-- Python `round(x, 1)`. -/
def round1 (q : ℚ) : ℚ := (roundHalfEven (q * 10) : ℚ) / 10

/-- Substring test on character lists: does `needle` occur inside `hay`?
Models Python's `in` operator on strings. -/
def charsContain (hay needle : List Char) : Bool :=
  match hay with
  | [] => needle.isEmpty
  | _ :: t => needle.isPrefixOf hay || charsContain t needle

/-- Here `strContains hay needle` models Python `needle in hay`. -/
def strContains (hay needle : String) : Bool :=
  charsContain hay.toList needle.toList

/-- Python `s[:30] + '...' if len(s) > 30 else s`. -/
def truncate30 (s : String) : String :=
  if s.length > 30 then (s.toList.take 30).asString ++ "..." else s

/-- Python `str.lower()` (character-wise). -/
def strLower (s : String) : String := (s.toList.map Char.toLower).asString

/-- Lexicographic (code point) comparison of character lists. -/
def charListLe : List Char → List Char → Bool
  | [], _ => true
  | _ :: _, [] => false
  | a :: as, b :: bs => if a < b then true else if a = b then charListLe as bs else false

/-- Python string `<=` (lexicographic by code point). -/
def strLe (a b : String) : Bool := charListLe a.toList b.toList

/-- Insertion into a `strLe`-sorted list of strings. -/
def insertSorted (x : String) : List String → List String
  | [] => [x]
  | y :: ys => if strLe x y then x :: y :: ys else y :: insertSorted x ys

/-- Python `sorted` on strings (stable insertion sort). -/
def sortStrings (l : List String) : List String := l.foldr insertSorted []

/-! ## PLParser._clean_numeric_column (pl_parser.py, lines 249-275) -/

/-- A raw spreadsheet cell as seen by `_clean_numeric_column`. -/
inductive PyVal where
  | null : PyVal
  | num (q : ℚ) : PyVal
  | str (s : String) : PyVal
deriving DecidableEq

/-- Characters removed by `re.sub(r'[$€£¥,\s]', '', val_str)`. -/
def isStrippedChar (c : Char) : Bool :=
  c = '$' || c = '€' || c = '£' || c = '¥' || c = ',' || c.isWhitespace

/-- The currency/separator/whitespace strip step. -/
def stripChars (s : String) : String :=
  (s.toList.filter (fun c => !isStrippedChar c)).asString

/-- The accounting-parenthesis step: if the string contains both `(` and `)`,
prepend `-` and delete every parenthesis. -/
def parenNeg (s : String) : String :=
  if strContains s "(" && strContains s ")" then
    "-" ++ (s.toList.filter (fun c => c ≠ '(' && c ≠ ')')).asString
  else s

/-- Parse an unsigned digit run, returning accumulated value and digit count. -/
def parseDigits : List Char → ℕ → ℕ → (ℕ × ℕ × List Char)
  | c :: rest, acc, n =>
    if c.isDigit then parseDigits rest (acc * 10 + (c.toNat - 48)) (n + 1)
    else (acc, n, c :: rest)
  | [], acc, n => (acc, n, [])

/-- Mantissa: digits, optionally a point with further digits; at least one
digit overall. Returns the value and the remaining characters. -/
def parseMantissa (cs : List Char) : Option (ℚ × List Char) :=
  let (ip, ni, rest) := parseDigits cs 0 0
  match rest with
  | '.' :: rest2 =>
    let (fp, nf, rest3) := parseDigits rest2 0 0
    if ni + nf = 0 then none
    else some ((ip : ℚ) + (fp : ℚ) / ((10 : ℚ) ^ nf), rest3)
  | _ => if ni = 0 then none else some ((ip : ℚ), rest)

/-- Optional exponent part `e±ddd` applied to a mantissa value. -/
def parseExponent (v : ℚ) (cs : List Char) : Option ℚ :=
  match cs with
  | [] => some v
  | c :: rest =>
    if c = 'e' || c = 'E' then
      let (sgn, rest2) : ℚ × List Char :=
        match rest with
        | '+' :: r => (1, r)
        | '-' :: r => (-1, r)
        | r => (1, r)
      let (e, ne, rest3) := parseDigits rest2 0 0
      if ne = 0 || rest3 ≠ [] then none
      else some (v * (10 : ℚ) ^ ((if sgn < 0 then -(e : ℤ) else (e : ℤ))))
    else none

/-- Model of Python `float(str)` on the already-stripped strings produced by
`_clean_numeric_column` (finite decimal/exponent literals; the exotic
`inf`/`nan`/underscore spellings are not modelled and yield `none`). -/
def pyFloat (s : String) : Option ℚ :=
  match s.toList with
  | '+' :: rest => (parseMantissa rest).bind fun (v, r) => parseExponent v r
  | '-' :: rest => (parseMantissa rest).bind fun (v, r) => parseExponent (-v) r
  | cs => (parseMantissa cs).bind fun (v, r) => parseExponent v r

/-- Model of `clean_value` from `PLParser._clean_numeric_column`: nulls stay null,
numbers pass through, strings are stripped of currency symbols / thousands
separators / whitespace, parenthesised values are negated, and anything that
still fails to parse becomes null. -/
def cleanValue (v : PyVal) : Option ℚ :=
  match v with
  | .null => none
  | .num q => some q
  | .str s => pyFloat (parenNeg (stripChars s))

/-- The map `_clean_numeric_column` applied to a whole column. -/
def cleanNumericColumn (col : List PyVal) : List (Option ℚ) :=
  col.map cleanValue

/-! ## AccountMapper (account_mapper.py) -/

/-- The fixed reference taxonomy `STANDARD_ACCOUNTS`. -/
def STANDARD_ACCOUNTS : List (String × List String) :=
  [("Revenue",
    ["Sales Revenue", "Service Revenue", "Product Sales", "Consulting Revenue",
     "Subscription Revenue", "License Revenue", "Other Income", "Interest Income",
     "Rental Income", "Commission Income"]),
   ("Cost of Goods Sold",
    ["Cost of Sales", "Cost of Goods Sold", "Direct Materials", "Direct Labor",
     "Manufacturing Costs", "Inventory Costs", "Shipping Costs", "Product Costs",
     "Cost of Services"]),
   ("Operating Expenses",
    ["Salaries & Wages", "Rent", "Marketing & Advertising", "Utilities",
     "Depreciation", "Professional Fees", "Insurance", "Office Supplies",
     "Travel & Entertainment", "Software & Technology", "Repairs & Maintenance",
     "Payroll Taxes", "Employee Benefits", "Training & Development",
     "Research & Development", "Legal Fees", "Accounting Fees", "Consulting Fees",
     "Telecommunications", "Postage & Delivery"]),
   ("Financial Items",
    ["Interest Expense", "Bank Charges", "Foreign Exchange Gain", "Foreign Exchange Loss",
     "Investment Income", "Dividend Income"]),
   ("Non-Operating Items",
    ["Gain on Sale of Assets", "Loss on Sale of Assets", "Impairment Loss",
     "Extraordinary Gains", "Extraordinary Losses", "Other Non-Operating Income",
     "Other Non-Operating Expense"]),
   ("Tax",
    ["Income Tax Expense", "Tax Provision", "Deferred Tax", "State Tax", "Federal Tax"])]

/-- The six category names of the fixed taxonomy. -/
def taxonomyCategories : List String := STANDARD_ACCOUNTS.map Prod.fst

/-- One DP row of the longest-common-subsequence table: `prev` is the previous
row (over prefixes of `bs`), `diag`/`left` the neighbouring cells. -/
def lcsRow (x : Char) : List Char → List ℕ → ℕ → ℕ → List ℕ
  | [], _, _, _ => []
  | c :: cs, prev, diag, left =>
    let up := prev.headD 0
    let v := if c = x then diag + 1 else max up left
    v :: lcsRow x cs prev.tail up v

/-- Length of the longest common subsequence of two character lists. -/
def lcs (a b : List Char) : ℕ :=
  (a.foldl (fun prev x => lcsRow x b prev 0 0) (List.replicate b.length 0)).getLastD 0

/-- Split a character list at whitespace. -/
def wsSplit : List Char → List (List Char)
  | [] => [[]]
  | c :: rest =>
    match wsSplit rest with
    | [] => [[]]
    | cur :: done =>
      if c.isWhitespace then [] :: cur :: done else (c :: cur) :: done

/-- Whitespace tokenisation as used by `token_sort_ratio` (empty fragments
dropped). -/
def splitTokens (s : String) : List String :=
  ((wsSplit s.toList).map List.asString).filter (· ≠ "")

/-- Tokens sorted lexicographically and joined by single spaces. -/
def tokensSorted (s : String) : String :=
  String.intercalate " " (sortStrings (splitTokens s))

/-- Model of `rapidfuzz.fuzz.token_sort_ratio`: sort whitespace tokens, join, and take
the normalised indel similarity on a 0-100 scale
(`dist = la + lb - 2·lcs`, similarity `= (la + lb - dist)/(la + lb) · 100`). -/
def tokenSortScore (a b : String) : ℚ :=
  let sa := tokensSorted a
  let sb := tokensSorted b
  let la := sa.length
  let lb := sb.length
  if la + lb = 0 then 100
  else (2 * (lcs sa.toList sb.toList) : ℚ) * 100 / ((la + lb : ℕ) : ℚ)

/-- Result record of a single categorisation (`category`, `subcategory`,
`is_subtotal`, `confidence`, `method`). -/
structure Mapping where
  category : String
  subcategory : String
  is_subtotal : Bool
  confidence : ℚ
  method : String
deriving DecidableEq

/-- The `(category, reference account, score)` triples for one queried name:
the `all_matches` list of `_fuzzy_match`. -/
def allMatches (name : String) : List (String × String × ℚ) :=
  STANDARD_ACCOUNTS.flatMap fun ca =>
    ca.2.map fun stdAccount => (ca.1, stdAccount, tokenSortScore (strLower name) (strLower stdAccount))

/-- Python `max(xs, key=k)`: first element attaining the maximal key. -/
def maxByFirst (k : α → ℚ) : α → List α → α
  | best, [] => best
  | best, x :: xs => if k x > k best then maxByFirst k x xs else maxByFirst k best xs

/-- Model of `AccountMapper._fuzzy_match` with its default threshold 70. -/
def fuzzyMatch (name : String) : Mapping :=
  match allMatches name with
  | [] => ⟨"Uncategorized", "", false, 0, "fuzzy"⟩
  | m :: ms =>
    let best := maxByFirst (fun t => t.2.2) m ms
    let confidence := best.2.2 / 100
    if best.2.2 ≥ 70 then
      ⟨best.1, best.2.1, false, confidence, "fuzzy"⟩
    else
      ⟨"Uncategorized", "", false, confidence, "fuzzy"⟩

/-- Python-dict association list over strings. -/
abbrev Dict (β : Type) := List (String × β)

/-- Python dict assignment `d[k] = v`: update in place, else append. -/
def dinsert (k : String) (v : β) : Dict β → Dict β
  | [] => [(k, v)]
  | (k0, v0) :: rest => if k0 = k then (k0, v) :: rest else (k0, v0) :: dinsert k v rest

/-- Python dict lookup returning an option. -/
def dget (k : String) : Dict β → Option β
  | [] => none
  | (k0, v0) :: rest => if k0 = k then some v0 else dget k rest

/-- One raw entry of the external categorisation response; absent JSON keys
are `none` (`data.get(..., default)` supplies the defaults). -/
structure AiRaw where
  category : Option String
  subcategory : Option String
  is_subtotal : Option Bool
  confidence : Option ℚ
deriving DecidableEq

/-- Conversion of an external response entry to the standard format
(`_claude_categorize` / `_openai_categorize`, defaults
`'Unknown'`, `''`, `False`, `0.9`, method `'ai'`). -/
def convertAiEntry (raw : AiRaw) : Mapping :=
  ⟨raw.category.getD "Unknown", raw.subcategory.getD "", raw.is_subtotal.getD false,
   raw.confidence.getD (9/10), "ai"⟩

/-- The AI stage of `categorize_accounts`: an absent client or a failed call
contributes nothing, a successful response is converted entry by entry. -/
def aiResults (response : Option (Dict AiRaw)) : Dict Mapping :=
  match response with
  | none => []
  | some entries => entries.foldl (fun d kv => dinsert kv.1 (convertAiEntry kv.2) d) []

/-- The body of the per-name loop in `categorize_accounts`: a fuzzy match is
computed for a name missing from the results or carried with confidence
`< 0.7`, and kept only when the name is missing or the fuzzy confidence is
strictly higher. -/
def catStep (results : Dict Mapping) (name : String) : Dict Mapping :=
  match dget name results with
  | none => dinsert name (fuzzyMatch name) results
  | some existing =>
    if existing.confidence < 7/10 then
      let fz := fuzzyMatch name
      if fz.confidence > existing.confidence then dinsert name fz results else results
    else results

/-- Model of `AccountMapper.categorize_accounts`: AI results first, then the fuzzy
fill-in loop over the queried names. -/
def categorizeAccounts (response : Option (Dict AiRaw)) (names : List String) : Dict Mapping :=
  names.foldl catStep (aiResults response)

/-- First-occurrence deduplication with a seen-set accumulator. -/
def uniqFirstAux (seen : List String) : List String → List String
  | [] => []
  | x :: xs => if x ∈ seen then uniqFirstAux seen xs else x :: uniqFirstAux (x :: seen) xs

/-- First-occurrence deduplication, as `pandas.Series.unique`. -/
def uniqFirst (l : List String) : List String := uniqFirstAux [] l

/-- An input row of `batch_categorize_dataframe`: the account cell may be
null. -/
structure AccountRow where
  account : Option String
deriving DecidableEq

/-- An output row of `batch_categorize_dataframe`, carrying the added
columns. -/
structure CatRow where
  account : Option String
  category : String
  subcategory : String
  is_subtotal_mapped : Bool
  mapping_confidence : ℚ
  mapping_method : String
  needs_review : Bool
deriving DecidableEq

/-- Model of `AccountMapper.batch_categorize_dataframe`: categorize the distinct
non-null account names, then map each row through the result, with defaults
`'Unknown'`, `''`, `False`, `0.0`, `'none'` for rows whose cell is absent
from the mapping. -/
def batchCategorize (response : Option (Dict AiRaw)) (rows : List AccountRow) : List CatRow :=
  let names := uniqFirst (rows.filterMap (·.account))
  let mappings := categorizeAccounts response names
  rows.map fun r =>
    let entry : Option Mapping := r.account.bind fun a => dget a mappings
    let conf := (entry.map (·.confidence)).getD 0
    { account := r.account
      category := (entry.map (·.category)).getD "Unknown"
      subcategory := (entry.map (·.subcategory)).getD ""
      is_subtotal_mapped := (entry.map (·.is_subtotal)).getD false
      mapping_confidence := conf
      mapping_method := (entry.map (·.method)).getD "none"
      needs_review := conf < 3/4 }

/-! ## StartupMetricsCalculator (startup_metrics.py) -/

/-- A parsed P&L row as used by the metrics engine: the stringified account
cell and the nullable numeric cell of each value column. -/
structure MRow where
  account : String
  cells : List (String × Option ℚ)
deriving DecidableEq

/-- Cell access `row[period]` (absent column ≡ null cell). -/
def getCell (cells : List (String × Option ℚ)) (c : String) : Option ℚ :=
  match List.lookup c cells with
  | some v => v
  | none => none

/-- Model of `np.mean` over exact rationals (callers guard the empty case). -/
def mean (xs : List ℚ) : ℚ := xs.sum / (xs.length : ℚ)

/-- Python `dict(zip(ks, vs))`. -/
def dzip (ks : List String) (vs : List ℚ) : Dict ℚ :=
  (List.zip ks vs).foldl (fun d kv => dinsert kv.1 kv.2 d) []

/-- Keyword list of `_is_revenue_account`. -/
def revenueKeywords : List String :=
  ["revenue", "sales", "income", "subscription", "recurring", "arr", "mrr", "services revenue"]

/-- Exclusion list of `_is_revenue_account`. -/
def revenueExcludeKeywords : List String := ["expense", "cost", "cogs"]

/-- Model of `_is_revenue_account`. -/
def isRevenueAccount (account : String) : Bool :=
  let al := strLower account
  (revenueKeywords.any (fun kw => strContains al kw)) &&
    !(revenueExcludeKeywords.any (fun kw => strContains al kw))

/-- Keyword list of `_is_expense_account`. -/
def expenseKeywords : List String :=
  ["expense", "cost", "salaries", "wages", "payroll", "marketing",
   "advertising", "rent", "software", "consulting", "fees",
   "depreciation", "amortization", "interest", "tax", "utilities",
   "travel", "insurance", "benefits", "hosting", "cloud", "aws",
   "engineering", "r&d", "research", "development"]

/-- Model of `_is_expense_account`. -/
def isExpenseAccount (account : String) : Bool :=
  expenseKeywords.any (fun kw => strContains (strLower account) kw)

/-- The inner row loop of `_calculate_aggregates` for one period column:
null cells are skipped, revenue-matching rows add `abs(value)` to the first
component, otherwise expense-matching rows add to the second. -/
def aggStep (p : String) (re : ℚ × ℚ) (r : MRow) : ℚ × ℚ :=
  match getCell r.cells p with
  | none => re
  | some v =>
    let account := (strLower r.account)
    if isRevenueAccount account then (re.1 + |v|, re.2)
    else if isExpenseAccount account then (re.1, re.2 + |v|)
    else re

/-- The `(revenue, expenses)` totals of one period column. -/
def aggPair (df : List MRow) (p : String) : ℚ × ℚ :=
  df.foldl (aggStep p) (0, 0)

/-- The per-period aggregate maps of `_calculate_aggregates`. -/
structure Aggregates where
  revenue_by_period : Dict ℚ
  expenses_by_period : Dict ℚ
  net_income_by_period : Dict ℚ
  periods : List String
deriving DecidableEq

/-- The body of the period loop in `_calculate_aggregates`. -/
def aggFoldStep (df : List MRow) (agg : Aggregates) (p : String) : Aggregates :=
  let re := aggPair df p
  { agg with
      revenue_by_period := dinsert p re.1 agg.revenue_by_period
      expenses_by_period := dinsert p re.2 agg.expenses_by_period
      net_income_by_period := dinsert p (re.1 - re.2) agg.net_income_by_period }

/-- Model of `_calculate_aggregates`: empty when there are no value columns, else
maps keyed in input column order with `periods = sorted(value_columns)`. -/
def calculateAggregates (df : List MRow) (valueCols : List String) : Aggregates :=
  if valueCols.isEmpty then ⟨[], [], [], []⟩
  else valueCols.foldl (aggFoldStep df) ⟨[], [], [], sortStrings valueCols⟩

/-- The burn record of `_calculate_burn_rate`. -/
structure BurnMetrics where
  gross_burn_by_period : Dict ℚ
  gross_burn_avg : ℚ
  gross_burn_latest : ℚ
  net_burn_by_period : Dict ℚ
  net_burn_avg : ℚ
  net_burn_latest : ℚ
  burn_rate_trend : ℚ
  burn_rate_trend_direction : String
deriving DecidableEq

/-- Model of `_calculate_burn_rate`; `none` is Python's empty dict returned when there
are no expense entries. Note that `net_burn_by_period` zips the *sorted*
period list against burns listed in input-column order. -/
def calculateBurnRate (agg : Aggregates) : Option BurnMetrics :=
  let expenses := agg.expenses_by_period.map (·.2)
  let revenues := agg.revenue_by_period.map (·.2)
  if expenses.isEmpty then none
  else
    let netBurns := List.zipWith (· - ·) expenses revenues
    let trendPair : ℚ × String :=
      if netBurns.length ≥ 3 then
        let recent := mean (netBurns.drop (netBurns.length - 3))
        let earlier :=
          if netBurns.length > 3 then mean (netBurns.take (netBurns.length - 3))
          else netBurns.headD 0
        ((if earlier ≠ 0 then (recent - earlier) / |earlier| * 100 else 0),
         if recent > earlier then "increasing" else "decreasing")
      else (0, "stable")
    some
      { gross_burn_by_period := agg.expenses_by_period
        gross_burn_avg := mean expenses
        gross_burn_latest := expenses.getLastD 0
        net_burn_by_period := dzip agg.periods netBurns
        net_burn_avg := mean netBurns
        net_burn_latest := netBurns.getLastD 0
        burn_rate_trend := trendPair.1
        burn_rate_trend_direction := trendPair.2 }

/-- The `months_remaining` value: either `float('inf')` or a finite value. -/
inductive MonthsVal where
  | inf : MonthsVal
  | fin (q : ℚ) : MonthsVal
deriving DecidableEq

/-- A calendar date, for the `datetime.now()` reading and the projected
zero-cash date. -/
structure Date where
  year : ℤ
  month : ℤ
  day : ℤ
deriving DecidableEq

/-- Gregorian leap year. -/
def isLeapYear (y : ℤ) : Bool := (y % 4 = 0 && y % 100 ≠ 0) || y % 400 = 0

/-- Days in a Gregorian month. -/
def daysInMonth (y m : ℤ) : ℤ :=
  if m = 1 || m = 3 || m = 5 || m = 7 || m = 8 || m = 10 || m = 12 then 31
  else if m = 4 || m = 6 || m = 9 || m = 11 then 30
  else if isLeapYear y then 29 else 28

/-- Model of `dateutil.relativedelta(months=k)` applied to a date: month arithmetic
with the day clamped into the target month. -/
def addMonths (d : Date) (k : ℤ) : Date :=
  let m0 := d.month - 1 + k
  let y := d.year + Int.ediv m0 12
  let m := Int.emod m0 12 + 1
  ⟨y, m, min d.day (daysInMonth y m)⟩

/-- Two-digit zero padding. -/
def pad2 (n : ℤ) : String := if n < 10 then "0" ++ toString n else toString n

/-- Python `strftime` with the year-month-day format. -/
def formatDate (d : Date) : String :=
  toString d.year ++ "-" ++ pad2 d.month ++ "-" ++ pad2 d.day

/-- Python `int()` truncation toward zero on a rational. -/
def pyInt (q : ℚ) : ℤ := if q ≥ 0 then ⌊q⌋ else -⌊-q⌋

/-- The runway record of `_calculate_runway`. -/
structure RunwayMetrics where
  months_remaining : MonthsVal
  zero_cash_date : Option String
  status : String
  urgency : String
  cash_balance : ℚ
deriving DecidableEq

/-- Model of `_calculate_runway`: infinite runway when the average net burn is
non-positive; otherwise the quotient (stored rounded to one decimal), a
projected zero-cash date from the current date, and the status/urgency
bands keyed on the unrounded quotient. -/
def calcRunway (cash avgNetBurn : ℚ) (today : Date) : RunwayMetrics :=
  if avgNetBurn ≤ 0 then
    ⟨.inf, none, "profitable", "none", cash⟩
  else
    let months := cash / avgNetBurn
    let zeroDate := addMonths today (pyInt months)
    let su : String × String :=
      if months < 6 then ("critical", "high")
      else if months < 12 then ("concerning", "medium")
      else if months < 18 then ("comfortable", "low")
      else ("strong", "none")
    ⟨.fin (round1 months), some (formatDate zeroDate), su.1, su.2, cash⟩

/-- The CMGR value: the source computes `((last/first)^(1/n) - 1) * 100`
with floating-point exponentiation; the non-rational root is kept symbolic
as `root ratio n`. -/
inductive CmgrVal where
  | num (q : ℚ) : CmgrVal
  | root (ratio : ℚ) (n : ℕ) : CmgrVal
deriving DecidableEq

/-- The growth record of `_calculate_growth_metrics`. -/
structure GrowthMetrics where
  mom_growth_by_period : Dict ℚ
  mom_growth_avg : ℚ
  mom_growth_latest : ℚ
  overall_growth : ℚ
  cmgr : CmgrVal
  growth_trend : String
deriving DecidableEq

/-- Consecutive month-over-month growth percentages (0 on a zero prior). -/
def momList : List ℚ → List ℚ
  | x :: y :: rest => (if x ≠ 0 then (y - x) / |x| * 100 else 0) :: momList (y :: rest)
  | _ => []

/-- Model of `_calculate_growth_metrics`; `none` is the empty dict returned for fewer
than two revenue entries. The MoM map zips `periods[1:]` (sorted order)
against growth values computed in input-column order. -/
def calculateGrowthMetrics (agg : Aggregates) : Option GrowthMetrics :=
  let revenues := agg.revenue_by_period.map (·.2)
  if revenues.length < 2 then none
  else
    let mom := momList revenues
    let momAvg := if mom.isEmpty then 0 else mean mom
    let first := revenues.headD 0
    let last := revenues.getLastD 0
    some
      { mom_growth_by_period := dzip (agg.periods.drop 1) mom
        mom_growth_avg := momAvg
        mom_growth_latest := mom.getLastD 0
        overall_growth := if first ≠ 0 then (last - first) / |first| * 100 else 0
        cmgr :=
          if revenues.length ≥ 3 ∧ first > 0 then .root (last / first) (revenues.length - 1)
          else .num 0
        growth_trend :=
          if mom.length ≥ 3 then
            if mean (mom.drop (mom.length - 3)) > momAvg then "accelerating" else "decelerating"
          else "stable" }

/-- One element of the `expense_data` list in `_identify_expense_drivers`. -/
structure ExpenseEntry where
  account : String
  latest_amount : ℚ
  previous_amount : ℚ
  change_dollar : ℚ
  change_percent : ℚ
deriving DecidableEq

/-- The expense-driver record. -/
structure Drivers where
  top_expenses : List ExpenseEntry
  fastest_growing : List ExpenseEntry
  largest_increases : List ExpenseEntry
deriving DecidableEq

/-- The per-row computation of `_identify_expense_drivers`: null cells are
coerced to 0 (not skipped), absolute values taken, percent change 0 when the
previous amount is 0. -/
def entryFor (latestCol prevCol : String) (r : MRow) : ExpenseEntry :=
  let latest := |((getCell r.cells latestCol).getD 0)|
  let prev := |((getCell r.cells prevCol).getD 0)|
  let change := latest - prev
  ⟨r.account, latest, prev, change, if prev ≠ 0 then change / prev * 100 else 0⟩

/-- The `expense_data` list: one entry per expense-classified row. -/
def expenseData (df : List MRow) (latestCol prevCol : String) : List ExpenseEntry :=
  df.filterMap fun r =>
    if isExpenseAccount (strLower r.account) then some (entryFor latestCol prevCol r) else none

/-- Stable insertion for descending sort by a rational key
(Python `sorted(..., reverse=True)`). -/
def insertDesc (k : α → ℚ) (x : α) : List α → List α
  | [] => [x]
  | y :: ys => if k x ≥ k y then x :: y :: ys else y :: insertDesc k x ys

/-- Stable descending sort by key. -/
def sortDescBy (k : α → ℚ) (xs : List α) : List α := xs.foldr (insertDesc k) []

/-- Model of `_identify_expense_drivers`: compares only the latest two value columns. -/
def identifyExpenseDrivers (df : List MRow) (valueCols : List String) : Drivers :=
  if valueCols.length < 2 then ⟨[], [], []⟩
  else
    let latestCol := valueCols.getLastD ""
    let prevCol := valueCols.dropLast.getLastD ""
    let data := expenseData df latestCol prevCol
    ⟨(sortDescBy (·.latest_amount) data).take 5,
     (sortDescBy (·.change_percent) (data.filter (·.change_percent > 5))).take 5,
     (sortDescBy (·.change_dollar) (data.filter (·.change_dollar > 0))).take 5⟩

/-- The cash-efficiency record. -/
structure Efficiency where
  burn_multiple : Option ℚ
  revenue_per_dollar_spent : ℚ
  efficiency_rating : String
deriving DecidableEq

/-- Model of `_calculate_cash_efficiency`; an absent `burn_multiple` key and a stored
`None` both collapse to `none`, and a stored `0.0` (falsy) rates
`'unknown'`. -/
def calcEfficiency (agg : Aggregates) (burnOpt : Option BurnMetrics) : Efficiency :=
  let latestRevenue := (agg.revenue_by_period.map (·.2)).getLastD 0
  let avgBurn := (burnOpt.map (·.net_burn_avg)).getD 0
  let bm : Option ℚ :=
    if avgBurn > 0 then
      if latestRevenue * 12 > 0 then some (round2 (avgBurn * 12 / (latestRevenue * 12)))
      else none
    else none
  let latestExpenses := (agg.expenses_by_period.map (·.2)).getLastD 0
  let rpds := if latestExpenses > 0 then round2 (latestRevenue / latestExpenses) else 0
  let rating :=
    match bm with
    | some v =>
      if v ≠ 0 then
        if v < 3/2 then "excellent"
        else if v < 5/2 then "good"
        else if v < 4 then "average"
        else "poor"
      else "unknown"
    | none => "unknown"
  ⟨bm, rpds, rating⟩

/-- A structured insight statement. -/
structure Insight where
  type : String
  category : String
  message : String
  priority : String
deriving DecidableEq

/-- Python fixed one-decimal formatting on an exact rational. -/
def formatFixed1 (q : ℚ) : String :=
  let s := roundHalfEven (q * 10)
  let n := s.natAbs
  (if s < 0 then "-" else "") ++ toString (n / 10) ++ "." ++ toString (n % 10)

/-- Decimal rendering of a two-decimal rational, as Python `str(float)`
renders the rounded burn multiple. -/
def formatTrim2 (q : ℚ) : String :=
  let s := roundHalfEven (q * 100)
  let n := s.natAbs
  let frac := n % 100
  (if s < 0 then "-" else "") ++ toString (n / 100) ++ "." ++
    (if frac % 10 = 0 then toString (frac / 10)
     else if frac < 10 then "0" ++ toString frac
     else toString frac)

/-- Fixed one-decimal formatting where months may be `float('inf')`. -/
def formatMonths : MonthsVal → String
  | .inf => "inf"
  | .fin q => formatFixed1 q

/-- Ascending priority rank used for sorting insights. -/
def priorityOrder (p : String) : ℕ :=
  if p = "high" then 0 else if p = "medium" then 1 else if p = "low" then 2 else 3

/-- Stable insertion for ascending sort by a natural key
(Python `list.sort(key=...)`). -/
def insertAsc (k : α → ℕ) (x : α) : List α → List α
  | [] => [x]
  | y :: ys => if k x ≤ k y then x :: y :: ys else y :: insertAsc k x ys

/-- Stable ascending sort by key. -/
def sortAscBy (k : α → ℕ) (xs : List α) : List α := xs.foldr (insertAsc k) []

/-- Model of `_generate_key_insights`: the rule engine over the computed records,
sorted by priority. A truthiness check guards the runway branch
(`months_remaining` equal to `0.0` is falsy; `float('inf')` is truthy and
falls into the `>= 18` band). -/
def genInsights (runwayOpt : Option RunwayMetrics) (burnOpt : Option BurnMetrics)
    (growthOpt : Option GrowthMetrics) (effOpt : Option Efficiency) : List Insight :=
  let runwayIns : List Insight :=
    match runwayOpt with
    | none => []
    | some rw =>
      match rw.months_remaining with
      | .inf =>
        [⟨"positive", "runway",
          "Strong position with " ++ formatMonths .inf ++ " months of runway.", "low"⟩]
      | .fin m =>
        if m = 0 then []
        else if m < 6 then
          [⟨"warning", "runway",
            "Critical: Only " ++ formatFixed1 m ++
              " months of runway remaining. Consider fundraising immediately.", "high"⟩]
        else if m < 12 then
          [⟨"caution", "runway",
            "You have " ++ formatFixed1 m ++
              " months of runway. Start preparing for fundraising.", "medium"⟩]
        else if m ≥ 18 then
          [⟨"positive", "runway",
            "Strong position with " ++ formatFixed1 m ++ " months of runway.", "low"⟩]
        else []
  let burnIns : List Insight :=
    match burnOpt with
    | none => []
    | some b =>
      if b.burn_rate_trend_direction = "increasing" then
        [⟨"warning", "burn",
          "Burn rate is increasing (" ++ formatFixed1 |b.burn_rate_trend| ++
            "% higher than earlier periods).", "high"⟩]
      else []
  let growthIns : List Insight :=
    let gl := (growthOpt.map (·.mom_growth_latest)).getD 0
    if gl > 10 then
      [⟨"positive", "growth",
        "Strong revenue growth of " ++ formatFixed1 gl ++ "% last month.", "medium"⟩]
    else if gl < 0 then
      [⟨"warning", "growth",
        "Revenue declined " ++ formatFixed1 |gl| ++ "% last month.", "high"⟩]
    else []
  let effIns : List Insight :=
    match effOpt with
    | none => []
    | some e =>
      let bmStr := (e.burn_multiple.map formatTrim2).getD "None"
      if e.efficiency_rating = "excellent" then
        [⟨"positive", "efficiency",
          "Excellent cash efficiency with " ++ bmStr ++ "x burn multiple.", "low"⟩]
      else if e.efficiency_rating = "poor" then
        [⟨"caution", "efficiency",
          "High burn multiple (" ++ bmStr ++ "x) indicates inefficient growth.", "medium"⟩]
      else []
  sortAscBy (fun i => priorityOrder i.priority) (runwayIns ++ burnIns ++ growthIns ++ effIns)

/-- The full metrics record returned by `calculate_all_metrics`. -/
structure MetricsResult where
  aggregates : Aggregates
  burn_rate : Option BurnMetrics
  runway : Option RunwayMetrics
  growth : Option GrowthMetrics
  expense_drivers : Drivers
  efficiency : Option Efficiency
  insights : List Insight
deriving DecidableEq

/-- Model of `calculate_all_metrics`. Runway is computed only when a cash balance is
supplied and `net_burn_avg` is truthy (nonzero); efficiency only when the
revenue map is non-empty. `today` is the `datetime.now()` reading consumed
by `_calculate_runway`. -/
def calculateAllMetrics (df : List MRow) (valueCols : List String) (cash : Option ℚ)
    (today : Date) : MetricsResult :=
  let agg := calculateAggregates df valueCols
  let burn := calculateBurnRate agg
  let runway : Option RunwayMetrics :=
    match cash, burn with
    | some c, some b =>
      if b.net_burn_avg ≠ 0 then some (calcRunway c b.net_burn_avg today) else none
    | _, _ => none
  let growth := calculateGrowthMetrics agg
  let drivers := identifyExpenseDrivers df valueCols
  let efficiency : Option Efficiency :=
    if agg.revenue_by_period.isEmpty then none else some (calcEfficiency agg burn)
  ⟨agg, burn, runway, growth, drivers, efficiency, genInsights runway burn growth efficiency⟩

/-! ## WaterfallCalculator (waterfall_calculator.py) -/

/-- A classified P&L row as consumed by the waterfall calculator. -/
structure WRow where
  account : String
  category : String
  rowType : String
  cells : List (String × Option ℚ)
deriving DecidableEq

/-- Row total `df[cols].sum(axis=1)`: null cells are skipped. -/
def periodTotal (cols : List String) (r : WRow) : ℚ :=
  (cols.map (fun c => (getCell r.cells c).getD 0)).sum

/-- Row movement `period2_total - period1_total`. -/
def movement (p1 p2 : List String) (r : WRow) : ℚ :=
  periodTotal p2 r - periodTotal p1 r

/-- Remove the first element attaining the maximal key (ties keep the
earliest, as `pandas.nlargest(..., keep='first')`). -/
def extractMax (k : α → ℚ) : List α → Option (α × List α)
  | [] => none
  | x :: xs =>
    match extractMax k xs with
    | none => some (x, [])
    | some (m, rest) => if k x ≥ k m then some (x, xs) else some (m, x :: rest)

/-- Pandas `nlargest(n, key)` split into (selected, remaining): repeatedly extract
the first maximal element. -/
def selectTop (k : α → ℚ) : ℕ → List α → List α × List α
  | 0, xs => ([], xs)
  | n + 1, xs =>
    match extractMax k xs with
    | none => ([], [])
    | some (m, rest) =>
      let sr := selectTop k n rest
      (m :: sr.1, sr.2)

/-- One bar of the waterfall chart (`categories`/`values`/`colors`/`measures`
entries of the source, kept together). -/
structure Segment where
  label : String
  value : ℚ
  color : String
  measure : String
deriving DecidableEq

/-- The waterfall chart payload: the start bar, the driver bars in rank
order, the optional Other bar (emitted only when `abs(other) > 0.01`), the
end bar, and the rounded summary fields. -/
structure WaterfallOut where
  startSegment : Segment
  driverSegments : List Segment
  otherSegment : Option Segment
  endSegment : Segment
  period1_value : ℚ
  period2_value : ℚ
  total_movement : ℚ
  total_movement_pct : ℚ
  y_min : ℚ
  top_drivers_count : ℕ
  other_movement : ℚ
deriving DecidableEq

/-- Driver color by sign (`green if positive else red`). -/
def signColor (v : ℚ) : String := if v > 0 then "#10b981" else "#ef4444"

/-- The body of `calculate_waterfall` after the category/line-item filter:
total each period, take the top-`n` rows by absolute movement, collapse the
rest into Other. Segment values are unrounded; the summary fields are
rounded to two decimals, with the percent-movement division guarded on a
zero period-1 total. -/
def waterfallCore (filtered : List WRow) (p1 p2 : List String) (topN : ℕ) : WaterfallOut :=
  let p1v := (filtered.map (periodTotal p1)).sum
  let p2v := (filtered.map (periodTotal p2)).sum
  let tm := p2v - p1v
  let sel := selectTop (fun r => |movement p1 p2 r|) topN filtered
  let otherMove := (sel.2.map (movement p1 p2)).sum
  let yMin := if p1v > 0 then p1v * (4/5) else p1v * (6/5)
  { startSegment := ⟨"Period 1", p1v, "#3b82f6", "absolute"⟩
    driverSegments := sel.1.map fun r =>
      ⟨truncate30 r.account, movement p1 p2 r, signColor (movement p1 p2 r), "relative"⟩
    otherSegment :=
      if |otherMove| > 1/100 then some ⟨"Other", otherMove, signColor otherMove, "relative"⟩
      else none
    endSegment := ⟨"Period 2", p2v, "#3b82f6", "total"⟩
    period1_value := round2 p1v
    period2_value := round2 p2v
    total_movement := round2 tm
    total_movement_pct := if p1v ≠ 0 then round2 (tm / p1v * 100) else 0
    y_min := round2 yMin
    top_drivers_count := sel.1.length
    other_movement := round2 otherMove }

/-- Model of `calculate_waterfall`: filter by category when a filter is given,
otherwise keep only line-item rows, then build the chart. -/
def calculateWaterfall (df : List WRow) (_metric : String) (p1 p2 : List String)
    (topN : ℕ) (metricFilter : Option String) : WaterfallOut :=
  let filtered :=
    match metricFilter with
    | some f => df.filter (fun r => r.category = f)
    | none => df.filter (fun r => r.rowType = "line_item")
  waterfallCore filtered p1 p2 topN

/-- Model of `_build_waterfall_structure`: identical chart assembly for the derived
metrics, with drivers given as `(account, impact)` pairs. -/
def buildWaterfallStructure (p1v p2v : ℚ) (topDrivers : List (String × ℚ))
    (otherMove : ℚ) (metricName : String) : WaterfallOut :=
  let tm := p2v - p1v
  let yMin := if p1v > 0 then p1v * (4/5) else p1v * (6/5)
  { startSegment := ⟨metricName ++ "\nPeriod 1", p1v, "#3b82f6", "absolute"⟩
    driverSegments := topDrivers.map fun d =>
      ⟨truncate30 d.1, d.2, signColor d.2, "relative"⟩
    otherSegment :=
      if |otherMove| > 1/100 then some ⟨"Other", otherMove, signColor otherMove, "relative"⟩
      else none
    endSegment := ⟨metricName ++ "\nPeriod 2", p2v, "#3b82f6", "total"⟩
    period1_value := round2 p1v
    period2_value := round2 p2v
    total_movement := round2 tm
    total_movement_pct := if p1v ≠ 0 then round2 (tm / p1v * 100) else 0
    y_min := round2 yMin
    top_drivers_count := topDrivers.length
    other_movement := round2 otherMove }

/-- Rows of one category as `(account, sign · movement)` impact pairs. -/
def signedRows (df : List WRow) (p1 p2 : List String) (cat : String) (sign : ℚ) :
    List (String × ℚ) :=
  (df.filter (fun r => r.category = cat)).map fun r => (r.account, sign * movement p1 p2 r)

/-- Total of one category over a period column set. -/
def catTotal (df : List WRow) (cat : String) (cols : List String) : ℚ :=
  ((df.filter (fun r => r.category = cat)).map (periodTotal cols)).sum

/-- Model of `_calculate_gross_profit_waterfall`: Revenue − COGS. -/
def grossProfitWaterfall (df : List WRow) (p1 p2 : List String) (topN : ℕ) : WaterfallOut :=
  let drivers := signedRows df p1 p2 "Revenue" 1 ++ signedRows df p1 p2 "Cost of Goods Sold" (-1)
  let p1gp := catTotal df "Revenue" p1 - catTotal df "Cost of Goods Sold" p1
  let p2gp := catTotal df "Revenue" p2 - catTotal df "Cost of Goods Sold" p2
  let sel := selectTop (fun d => |d.2|) topN drivers
  buildWaterfallStructure p1gp p2gp sel.1 ((sel.2.map (·.2)).sum) "Gross Profit"

/-- Model of `_calculate_operating_profit_waterfall`: Revenue − COGS − OpEx. -/
def operatingProfitWaterfall (df : List WRow) (p1 p2 : List String) (topN : ℕ) : WaterfallOut :=
  let drivers := signedRows df p1 p2 "Revenue" 1 ++
    signedRows df p1 p2 "Cost of Goods Sold" (-1) ++
    signedRows df p1 p2 "Operating Expenses" (-1)
  let p1op := catTotal df "Revenue" p1 - catTotal df "Cost of Goods Sold" p1 -
    catTotal df "Operating Expenses" p1
  let p2op := catTotal df "Revenue" p2 - catTotal df "Cost of Goods Sold" p2 -
    catTotal df "Operating Expenses" p2
  let sel := selectTop (fun d => |d.2|) topN drivers
  buildWaterfallStructure p1op p2op sel.1 ((sel.2.map (·.2)).sum) "Operating Profit"

/-- The six `(category, sign)` pairs of the net-profit formula. -/
def netProfitSigns : List (String × ℚ) :=
  [("Revenue", 1), ("Cost of Goods Sold", -1), ("Operating Expenses", -1),
   ("Financial Items", 1), ("Non-Operating Items", 1), ("Tax", -1)]

/-- Model of `_calculate_net_profit_waterfall`: all six categories with their signs. -/
def netProfitWaterfall (df : List WRow) (p1 p2 : List String) (topN : ℕ) : WaterfallOut :=
  let drivers := netProfitSigns.flatMap fun cs => signedRows df p1 p2 cs.1 cs.2
  let p1np := (netProfitSigns.map fun cs => cs.2 * catTotal df cs.1 p1).sum
  let p2np := (netProfitSigns.map fun cs => cs.2 * catTotal df cs.1 p2).sum
  let sel := selectTop (fun d => |d.2|) topN drivers
  buildWaterfallStructure p1np p2np sel.1 ((sel.2.map (·.2)).sum) "Net Profit"

/-- A raised Python exception; the source raises only `ValueError`. -/
inductive PyError where
  | valueError (msg : String) : PyError
deriving DecidableEq

/-- The exception class name of a raised error. -/
def PyError.className : PyError → String
  | .valueError _ => "ValueError"

/-- Model of `calculate_derived_metric`: dispatch on the three supported derived
metrics, raising `ValueError` on any other name. -/
def calculateDerivedMetric (df : List WRow) (metric : String) (p1 p2 : List String)
    (topN : ℕ) : Except PyError WaterfallOut :=
  if metric = "gross_profit" then .ok (grossProfitWaterfall df p1 p2 topN)
  else if metric = "operating_profit" then .ok (operatingProfitWaterfall df p1 p2 topN)
  else if metric = "net_profit" then .ok (netProfitWaterfall df p1 p2 topN)
  else .error (.valueError ("Unknown derived metric: " ++ metric))

/-- A waterfall request: a raw metric (optionally filtered by category) or
one of the three derived formulas. -/
inductive WReq where
  | raw (metric : String) (metricFilter : Option String) : WReq
  | grossProfit : WReq
  | operatingProfit : WReq
  | netProfit : WReq

/-- Run any waterfall request. -/
def runWaterfall (df : List WRow) (req : WReq) (p1 p2 : List String) (topN : ℕ) :
    WaterfallOut :=
  match req with
  | .raw metric filter => calculateWaterfall df metric p1 p2 topN filter
  | .grossProfit => grossProfitWaterfall df p1 p2 topN
  | .operatingProfit => operatingProfitWaterfall df p1 p2 topN
  | .netProfit => netProfitWaterfall df p1 p2 topN

/-- Sum of the driver segment values of a result. -/
def WaterfallOut.driverSum (w : WaterfallOut) : ℚ :=
  (w.driverSegments.map (·.value)).sum

/-- The Other segment value, taken as 0 when no Other segment is emitted. -/
def WaterfallOut.otherValue (w : WaterfallOut) : ℚ :=
  (w.otherSegment.map (·.value)).getD 0

/-- Reconciliation defect `start + Σ(drivers) + other - end` of a result. -/
def WaterfallOut.reconDiff (w : WaterfallOut) : ℚ :=
  w.startSegment.value + w.driverSum + w.otherValue - w.endSegment.value

/-! ## Spec-side definitions (for refinement comparisons) -/

/-- Per the spec: the revenue total of a period sums `abs(value)` of every
row whose account name matches the revenue heuristic (null cells skipped). -/
def specRevenueTotal (df : List MRow) (p : String) : ℚ :=
  (df.map fun r =>
    match getCell r.cells p with
    | some v => if isRevenueAccount (strLower r.account) then |v| else 0
    | none => 0).sum

/-- Per the spec (claim C7): the expense total of a period sums `abs(value)`
of *every* row whose account name matches the expense heuristic, independent
of the revenue heuristic. -/
def specExpenseTotal (df : List MRow) (p : String) : ℚ :=
  (df.map fun r =>
    match getCell r.cells p with
    | some v => if isExpenseAccount (strLower r.account) then |v| else 0
    | none => 0).sum

/-- What the source actually sums into the expense total: rows matching the
expense heuristic that do *not* also match the revenue heuristic (the
`elif`). -/
def codeExpenseTotal (df : List MRow) (p : String) : ℚ :=
  (df.map fun r =>
    match getCell r.cells p with
    | some v =>
      if ¬ isRevenueAccount (strLower r.account) ∧ isExpenseAccount (strLower r.account) then |v|
      else 0
    | none => 0).sum

/-- Erase the only clock-dependent output field (`runway.zero_cash_date`). -/
def scrubDate (m : MetricsResult) : MetricsResult :=
  { m with runway := m.runway.map fun r => { r with zero_cash_date := none } }

/-! ## Dictionary lemmas -/

theorem dget_dinsert_self {β : Type} (k : String) (v : β) (d : Dict β) :
    dget k (dinsert k v d) = some v := by
  induction d with
  | nil => simp [dinsert, dget]
  | cons kv rest ih =>
    by_cases h : kv.1 = k
    · simp [dinsert, dget, h]
    · simp [dinsert, dget, h, ih]

theorem dget_dinsert_ne {β : Type} {k k' : String} (hne : k' ≠ k) (v : β) (d : Dict β) :
    dget k' (dinsert k v d) = dget k' d := by
  induction d with
  | nil =>
    simp only [dinsert, dget]
    rw [if_neg fun h => hne h.symm]
  | cons kv rest ih =>
    simp only [dinsert]
    by_cases h : kv.1 = k
    · rw [if_pos h]
      have hcond : ¬ (kv.1 = k') := fun hh => hne ((hh ▸ h : k' = k))
      show (if kv.1 = k' then some v else dget k' rest) =
        (if kv.1 = k' then some kv.2 else dget k' rest)
      rw [if_neg hcond, if_neg hcond]
    · rw [if_neg h]
      show (if kv.1 = k' then some kv.2 else dget k' (dinsert k v rest)) =
        (if kv.1 = k' then some kv.2 else dget k' rest)
      by_cases h' : kv.1 = k'
      · rw [if_pos h', if_pos h']
      · rw [if_neg h', if_neg h', ih]

theorem dget_append_of_none {β : Type} {k : String} {d : Dict β} (e : Dict β)
    (h : dget k d = none) : dget k (d ++ e) = dget k e := by
  induction d with
  | nil => simp
  | cons kv rest ih =>
    simp only [dget] at h
    by_cases hk : kv.1 = k
    · rw [if_pos hk] at h
      exact absurd h (by simp)
    · rw [if_neg hk] at h
      simp only [List.cons_append, dget, if_neg hk]
      exact ih h

theorem dinsert_of_absent {β : Type} {k : String} {d : Dict β} (v : β)
    (h : dget k d = none) : dinsert k v d = d ++ [(k, v)] := by
  induction d with
  | nil => simp [dinsert]
  | cons kv rest ih =>
    simp only [dget] at h
    by_cases hk : kv.1 = k
    · rw [if_pos hk] at h
      exact absurd h (by simp)
    · rw [if_neg hk] at h
      simp only [dinsert, if_neg hk, List.cons_append]
      rw [ih h]

theorem foldl_dinsert_append {β : Type} :
    ∀ (l : List (String × β)) (acc : Dict β),
      (∀ kv ∈ l, dget kv.1 acc = none) → (l.map (·.1)).Nodup →
      l.foldl (fun d kv => dinsert kv.1 kv.2 d) acc = acc ++ l
  | [], acc, _, _ => by simp
  | kv :: rest, acc, hfresh, hnd => by
    have hnd' : kv.1 ∉ rest.map (·.1) ∧ (rest.map (·.1)).Nodup := by
      simpa [List.nodup_cons] using hnd
    have hk : dget kv.1 acc = none := hfresh kv (by simp)
    have step : dinsert kv.1 kv.2 acc = acc ++ [kv] := by
      simpa using dinsert_of_absent kv.2 hk
    have hfresh' : ∀ kv' ∈ rest, dget kv'.1 (acc ++ [kv]) = none := by
      intro kv' hkv'
      have hne : kv.1 ≠ kv'.1 := by
        intro hEq
        exact hnd'.1 (hEq ▸ List.mem_map_of_mem _ hkv')
      rw [dget_append_of_none _ (hfresh kv' (List.mem_cons_of_mem _ hkv'))]
      simp [dget, hne]
    have ih := foldl_dinsert_append rest (acc ++ [kv]) hfresh' hnd'.2
    simp only [List.foldl_cons, step, ih]
    simp

theorem dzip_eq_zip (ks : List String) (vs : List ℚ) (hnd : ks.Nodup)
    (hlen : ks.length ≤ vs.length) : dzip ks vs = ks.zip vs := by
  have hmap : (ks.zip vs).map (·.1) = ks := List.map_fst_zip ks vs hlen
  have := foldl_dinsert_append (β := ℚ) (ks.zip vs) []
    (by intro kv _; simp [dget]) (by rw [hmap]; exact hnd)
  simpa [dzip] using this

/-! ## Selection (nlargest) lemmas -/

theorem extractMax_eq_none {α : Type} (k : α → ℚ) (xs : List α) :
    extractMax k xs = none ↔ xs = [] := by
  cases xs with
  | nil => simp [extractMax]
  | cons x t =>
    simp only [extractMax]
    cases h : extractMax k t with
    | none => simp
    | some mr => by_cases hk : k x ≥ k mr.1 <;> simp [hk]

theorem extractMax_perm {α : Type} (k : α → ℚ) :
    ∀ {xs : List α} {m : α} {rest : List α},
      extractMax k xs = some (m, rest) → xs.Perm (m :: rest)
  | [], _, _, h => by simp [extractMax] at h
  | x :: t, m, rest, h => by
    simp only [extractMax] at h
    cases ht : extractMax k t with
    | none =>
      rw [ht] at h
      have hnil : t = [] := (extractMax_eq_none k t).mp ht
      subst hnil
      simp only [Option.some.injEq, Prod.mk.injEq] at h
      obtain ⟨h1, h2⟩ := h
      subst h1
      subst h2
      exact List.Perm.refl _
    | some mr =>
      obtain ⟨m1, r1⟩ := mr
      rw [ht] at h
      dsimp only at h
      by_cases hk : k x ≥ k m1
      · rw [if_pos hk] at h
        simp only [Option.some.injEq, Prod.mk.injEq] at h
        obtain ⟨h1, h2⟩ := h
        subst h1
        subst h2
        exact List.Perm.refl _
      · rw [if_neg hk] at h
        simp only [Option.some.injEq, Prod.mk.injEq] at h
        have hrec : t.Perm (m1 :: r1) := extractMax_perm k ht
        refine (hrec.cons x).trans ?_
        rw [← h.1, ← h.2]
        exact List.Perm.swap m1 x r1

theorem selectTop_perm {α : Type} (k : α → ℚ) :
    ∀ (n : ℕ) (xs : List α), xs.Perm ((selectTop k n xs).1 ++ (selectTop k n xs).2)
  | 0, xs => by simp [selectTop]
  | n + 1, xs => by
    simp only [selectTop]
    cases h : extractMax k xs with
    | none =>
      have hnil : xs = [] := (extractMax_eq_none k xs).mp h
      subst hnil
      simp
    | some mr =>
      have h1 : xs.Perm (mr.1 :: mr.2) := extractMax_perm k h
      have h2 := selectTop_perm k n mr.2
      exact h1.trans (h2.cons mr.1)

theorem selectTop_sum_split {α : Type} (k : α → ℚ) (f : α → ℚ) (n : ℕ) (xs : List α) :
    ((selectTop k n xs).1.map f).sum + ((selectTop k n xs).2.map f).sum = (xs.map f).sum := by
  have h := ((selectTop_perm k n xs).map f).sum_eq
  simp only [List.map_append, List.sum_append] at h
  exact h.symm

/-! ## Sum helpers -/

theorem sum_map_sub {α : Type} (f g : α → ℚ) (l : List α) :
    (l.map fun x => f x - g x).sum = (l.map f).sum - (l.map g).sum := by
  induction l with
  | nil => simp
  | cons x t ih => simp [ih]; ring

theorem sum_map_mul_const {α : Type} (c : ℚ) (f : α → ℚ) (l : List α) :
    (l.map fun x => c * f x).sum = c * (l.map f).sum := by
  induction l with
  | nil => simp
  | cons x t ih => simp [ih]; ring

theorem mem_dinsert {β : Type} {pv : String × β} {k : String} {v : β} :
    ∀ {d : Dict β}, pv ∈ dinsert k v d → pv = (k, v) ∨ pv ∈ d
  | [], h => Or.inl (by simpa [dinsert] using h)
  | kv :: rest, h => by
    by_cases hk : kv.1 = k
    · simp only [dinsert, if_pos hk] at h
      rcases List.mem_cons.mp h with h1 | h1
      · exact Or.inl (by rw [h1, hk])
      · exact Or.inr (List.mem_cons_of_mem _ h1)
    · simp only [dinsert, if_neg hk] at h
      rcases List.mem_cons.mp h with h1 | h1
      · exact Or.inr (by simp [h1])
      · rcases mem_dinsert h1 with h2 | h2
        · exact Or.inl h2
        · exact Or.inr (List.mem_cons_of_mem _ h2)

/-! ## Aggregate lemmas -/

theorem aggPair_eq (df : List MRow) (p : String) :
    aggPair df p = (specRevenueTotal df p, codeExpenseTotal df p) := by
  suffices h : ∀ init : ℚ × ℚ, df.foldl (aggStep p) init =
      (init.1 + specRevenueTotal df p, init.2 + codeExpenseTotal df p) by
    simpa [aggPair] using h (0, 0)
  induction df with
  | nil => intro init; simp [specRevenueTotal, codeExpenseTotal]
  | cons r t ih =>
    intro init
    simp only [List.foldl_cons]
    rw [ih (aggStep p init r)]
    have hspecR : specRevenueTotal (r :: t) p =
        (match getCell r.cells p with
         | some v => if isRevenueAccount (strLower r.account) then |v| else 0
         | none => 0) + specRevenueTotal t p := by
      simp [specRevenueTotal]
    have hspecE : codeExpenseTotal (r :: t) p =
        (match getCell r.cells p with
         | some v =>
           if ¬ isRevenueAccount (strLower r.account) ∧ isExpenseAccount (strLower r.account) then |v|
           else 0
         | none => 0) + codeExpenseTotal t p := by
      simp [codeExpenseTotal]
    rw [hspecR, hspecE]
    cases hc : getCell r.cells p with
    | none =>
      simp only [aggStep, hc]
      rw [Prod.ext_iff]
      constructor <;> simp
    | some v =>
      simp only [aggStep, hc]
      rw [Prod.ext_iff]
      by_cases hrev : isRevenueAccount (strLower r.account)
      · constructor <;> simp [hrev] <;> ring
      · by_cases hexp : isExpenseAccount (strLower r.account)
        · constructor <;> simp [hrev, hexp] <;> ring
        · constructor <;> simp [hrev, hexp] <;> ring

theorem aggFold_net_inv (df : List MRow) :
    ∀ (cols : List String) (acc : Aggregates),
      (∀ pv ∈ acc.net_income_by_period, pv.2 = (aggPair df pv.1).1 - (aggPair df pv.1).2) →
      ∀ pv ∈ (cols.foldl (aggFoldStep df) acc).net_income_by_period,
        pv.2 = (aggPair df pv.1).1 - (aggPair df pv.1).2
  | [], acc, hacc => by simpa using hacc
  | p :: rest, acc, hacc => by
    simp only [List.foldl_cons]
    refine aggFold_net_inv df rest (aggFoldStep df acc p) ?_
    intro pv hpv
    simp only [aggFoldStep] at hpv
    rcases mem_dinsert hpv with h1 | h1
    · rw [h1]
    · exact hacc pv h1

/-! ## Claim C7 -/

/-- C7, counterexample: the account name ``Interest Income`` matches both the
revenue and the expense heuristics, yet the aggregate loop adds its value
only to the revenue total (the `elif`), so the expense total is 0 where the
claim predicts 100. -/
theorem c7_counterexample :
    isRevenueAccount "Interest Income" = true ∧
    isExpenseAccount "Interest Income" = true ∧
    (aggPair [⟨"Interest Income", [("p", some 100)]⟩] "p").1 = 100 ∧
    (aggPair [⟨"Interest Income", [("p", some 100)]⟩] "p").2 = 0 ∧
    specExpenseTotal [⟨"Interest Income", [("p", some 100)]⟩] "p" = 100 ∧
    (0 : ℚ) ≠ 100 := by
  refine ⟨by decide, by decide, by decide, by decide, by decide, by decide⟩

/-- C7, amended: for each period column, the revenue total sums `abs(value)`
over rows matching the revenue heuristic, the expense total sums `abs(value)`
over rows matching the expense heuristic *and not* the revenue heuristic
(a row matching both contributes only to revenue), rows matching neither
contribute to neither, and every entry of the net-income map is the revenue
total minus the expense total of its period. -/
theorem c7_aggregate_sums (df : List MRow) (p : String) :
    (aggPair df p).1 = specRevenueTotal df p ∧
    (aggPair df p).2 = codeExpenseTotal df p ∧
    ∀ cols : List String, ∀ pv ∈ (calculateAggregates df cols).net_income_by_period,
      pv.2 = (aggPair df pv.1).1 - (aggPair df pv.1).2 := by
  refine ⟨by rw [aggPair_eq], by rw [aggPair_eq], ?_⟩
  intro cols pv hpv
  by_cases hc : cols.isEmpty
  · simp [calculateAggregates, hc] at hpv
  · simp only [calculateAggregates, hc, if_neg, Bool.false_eq_true] at hpv
    exact aggFold_net_inv df cols ⟨[], [], [], sortStrings cols⟩
      (by intro pv h; simp at h) pv (by simpa using hpv)

/-- C7 witness: a concrete net-income entry. -/
theorem c7_aggregate_sums_witness :
    (("p", (-100 : ℚ)) : String × ℚ).2 =
      (aggPair [⟨"Rent", [("p", some 100)]⟩] ("p", (-100 : ℚ)).1).1 -
        (aggPair [⟨"Rent", [("p", some 100)]⟩] ("p", (-100 : ℚ)).1).2 :=
  (c7_aggregate_sums [⟨"Rent", [("p", some 100)]⟩] "p").2.2 ["p"]
    ("p", (-100 : ℚ)) (by decide)

/-! ## Claim C8 -/

/-- C8: numeric normalization maps ``$1,234.56`` to 1234.56 and ``(500)`` to
-500; the strip step removes exactly currency symbols, thousands separators
and whitespace; an input that fails to parse after cleaning yields null; and
every non-null result comes from an actual parse, never from a default. -/
theorem c8_numeric_normalization :
    cleanValue (.str "$1,234.56") = some (1234.56 : ℚ) ∧
    cleanValue (.str "(500)") = some (-500 : ℚ) ∧
    (∀ s : String, ∀ c ∈ (stripChars s).toList, ¬ isStrippedChar c) ∧
    (∀ s : String, pyFloat (parenNeg (stripChars s)) = none → cleanValue (.str s) = none) ∧
    (∀ s : String, ∀ q : ℚ, cleanValue (.str s) = some q →
      pyFloat (parenNeg (stripChars s)) = some q) := by
  refine ⟨by decide, by decide, ?_, ?_, ?_⟩
  · intro s c hc
    have hc' : c ∈ s.toList.filter (fun c => !isStrippedChar c) := hc
    simpa using List.of_mem_filter hc'
  · intro s h
    simpa [cleanValue] using h
  · intro s q h
    simpa [cleanValue] using h

/-- C8 witness: an unparseable string yields null. -/
theorem c8_numeric_normalization_witness :
    cleanValue (.str "abc") = none :=
  c8_numeric_normalization.2.2.2.1 "abc" (by decide)

/-! ## Claim C9 -/

/-- C9: in the expense-driver computation, a row with a null previous cell
and a non-null latest cell is reported with previous amount 0, percent
change 0 and its full (absolute) latest amount as the dollar change —
whereas in the period aggregates a null cell contributes nothing. -/
theorem c9_null_coercion_drivers (df : List MRow) (latestCol prevCol : String)
    (r : MRow) (v : ℚ) (hr : r ∈ df)
    (hexp : isExpenseAccount (strLower r.account) = true)
    (hlat : getCell r.cells latestCol = some v)
    (hprev : getCell r.cells prevCol = none) :
    (⟨r.account, |v|, 0, |v|, 0⟩ : ExpenseEntry) ∈ expenseData df latestCol prevCol ∧
    ∀ re : ℚ × ℚ, aggStep prevCol re r = re := by
  constructor
  · have hentry : entryFor latestCol prevCol r = ⟨r.account, |v|, 0, |v|, 0⟩ := by
      simp [entryFor, hlat, hprev]
    rw [← hentry]
    exact List.mem_filterMap.mpr ⟨r, hr, by simp [hexp]⟩
  · intro re
    simp [aggStep, hprev]

/-- C9 witness: a concrete row with a null previous cell. -/
theorem c9_null_coercion_drivers_witness :
    (⟨"Rent", |(50 : ℚ)|, 0, |(50 : ℚ)|, 0⟩ : ExpenseEntry) ∈
      expenseData [⟨"Rent", [("a", none), ("b", some 50)]⟩] "b" "a" ∧
    ∀ re : ℚ × ℚ, aggStep "a" re ⟨"Rent", [("a", none), ("b", some 50)]⟩ = re :=
  c9_null_coercion_drivers [⟨"Rent", [("a", none), ("b", some 50)]⟩] "b" "a"
    ⟨"Rent", [("a", none), ("b", some 50)]⟩ 50 (by decide) (by decide) (by decide) (by decide)

/-! ## Claim C3 -/

/-- C3, counterexample: requesting an unsupported derived metric raises a
plain `ValueError`, not an error of a class named `UnknownMetricError`
(no such class exists in the source). -/
theorem c3_counterexample :
    calculateDerivedMetric [] "foo" [] [] 5 =
      .error (.valueError "Unknown derived metric: foo") ∧
    PyError.className (.valueError "Unknown derived metric: foo") = "ValueError" ∧
    "ValueError" ≠ "UnknownMetricError" :=
  ⟨rfl, rfl, by decide⟩

/-- C3, amended: any derived-metric name other than the three supported ones
raises a `ValueError` carrying the message ``Unknown derived metric: <name>``;
the source defines no `MalformedTableError`, `InsufficientDataError` or
`UnknownMetricError` classes, and the raised error class is `ValueError`. -/
theorem c3_unknown_metric_value_error (df : List WRow) (metric : String)
    (p1 p2 : List String) (topN : ℕ)
    (h1 : metric ≠ "gross_profit") (h2 : metric ≠ "operating_profit")
    (h3 : metric ≠ "net_profit") :
    calculateDerivedMetric df metric p1 p2 topN =
      .error (.valueError ("Unknown derived metric: " ++ metric)) ∧
    ∀ e, calculateDerivedMetric df metric p1 p2 topN = .error e →
      e.className = "ValueError" := by
  have hmain : calculateDerivedMetric df metric p1 p2 topN =
      .error (.valueError ("Unknown derived metric: " ++ metric)) := by
    simp [calculateDerivedMetric, h1, h2, h3]
  refine ⟨hmain, ?_⟩
  intro e he
  rw [hmain] at he
  injection he with h
  rw [← h]
  rfl

/-- C3 witness. -/
theorem c3_unknown_metric_value_error_witness :
    calculateDerivedMetric [] "foo" [] [] 3 =
      .error (.valueError ("Unknown derived metric: " ++ "foo")) :=
  (c3_unknown_metric_value_error [] "foo" [] [] 3 (by decide) (by decide) (by decide)).1

/-! ## Claim C10 -/

theorem waterfallCore_pct_zero (filtered : List WRow) (p1 p2 : List String) (n : ℕ)
    (h : (waterfallCore filtered p1 p2 n).startSegment.value = 0) :
    (waterfallCore filtered p1 p2 n).total_movement_pct = 0 := by
  simp only [waterfallCore] at h ⊢
  exact if_neg fun hne => hne h

theorem buildStructure_pct_zero (a b : ℚ) (drivers : List (String × ℚ)) (other : ℚ)
    (name : String)
    (h : (buildWaterfallStructure a b drivers other name).startSegment.value = 0) :
    (buildWaterfallStructure a b drivers other name).total_movement_pct = 0 := by
  simp only [buildWaterfallStructure] at h ⊢
  exact if_neg fun hne => hne h

/-- C10: for every waterfall request (raw category metric or derived), the
percent-movement division is guarded — whenever the unrounded period-1 total
(the start segment value) is exactly 0, `total_movement_pct` is 0. -/
theorem c10_pct_guard (df : List WRow) (p1 p2 : List String) (topN : ℕ) (req : WReq)
    (h : (runWaterfall df req p1 p2 topN).startSegment.value = 0) :
    (runWaterfall df req p1 p2 topN).total_movement_pct = 0 := by
  cases req with
  | raw metric filter => exact waterfallCore_pct_zero _ p1 p2 topN h
  | grossProfit => exact buildStructure_pct_zero _ _ _ _ _ h
  | operatingProfit => exact buildStructure_pct_zero _ _ _ _ _ h
  | netProfit => exact buildStructure_pct_zero _ _ _ _ _ h

/-- C10 witness: the empty table has a zero period-1 total. -/
theorem c10_pct_guard_witness :
    (runWaterfall [] (.raw "m" none) [] [] 0).total_movement_pct = 0 :=
  c10_pct_guard [] [] [] 0 (.raw "m" none) (by decide)

/-! ## Claim C2 -/

/-- C2, counterexample: cash 120,000 at average net burn 20,000 yields
months_remaining 6.0, but 6.0 is not `< 6`, so the source classifies it
`concerning`/`medium`, not `critical`/`high` as the claim states. -/
theorem c2_counterexample :
    (calcRunway 120000 20000 ⟨2026, 1, 15⟩).months_remaining = .fin 6 ∧
    (calcRunway 120000 20000 ⟨2026, 1, 15⟩).status = "concerning" ∧
    (calcRunway 120000 20000 ⟨2026, 1, 15⟩).urgency = "medium" ∧
    (calcRunway 120000 20000 ⟨2026, 1, 15⟩).status ≠ "critical" ∧
    (calcRunway 120000 20000 ⟨2026, 1, 15⟩).urgency ≠ "high" :=
  ⟨by decide, by decide, by decide, by decide, by decide⟩

/-- C2, amended: with a positive average net burn, the stored
months_remaining is `cash / burn` rounded to one decimal, and the bands on
the unrounded quotient are: `< 6` critical/high, `[6, 12)` concerning/medium,
`[12, 18)` comfortable/low, `>= 18` strong/none — so the 120,000 / 20,000
scenario (exactly 6.0 months) is concerning/medium. -/
theorem c2_runway_bands (cash burn : ℚ) (today : Date) (hb : 0 < burn) :
    (calcRunway cash burn today).months_remaining = .fin (round1 (cash / burn)) ∧
    (cash / burn < 6 →
      (calcRunway cash burn today).status = "critical" ∧
      (calcRunway cash burn today).urgency = "high") ∧
    (6 ≤ cash / burn → cash / burn < 12 →
      (calcRunway cash burn today).status = "concerning" ∧
      (calcRunway cash burn today).urgency = "medium") ∧
    (12 ≤ cash / burn → cash / burn < 18 →
      (calcRunway cash burn today).status = "comfortable" ∧
      (calcRunway cash burn today).urgency = "low") ∧
    (18 ≤ cash / burn →
      (calcRunway cash burn today).status = "strong" ∧
      (calcRunway cash burn today).urgency = "none") := by
  have hnle : ¬ burn ≤ 0 := not_le.mpr hb
  simp only [calcRunway, if_neg hnle]
  refine ⟨by trivial, fun h => ?_, fun h6 h12 => ?_, fun h12 h18 => ?_, fun h18 => ?_⟩
  · rw [if_pos h]
    constructor <;> trivial
  · rw [if_neg (not_lt.mpr h6), if_pos h12]
    constructor <;> trivial
  · rw [if_neg (not_lt.mpr (by linarith : (6 : ℚ) ≤ cash / burn)),
      if_neg (not_lt.mpr h12), if_pos h18]
    constructor <;> trivial
  · rw [if_neg (not_lt.mpr (by linarith : (6 : ℚ) ≤ cash / burn)),
      if_neg (not_lt.mpr (by linarith : (12 : ℚ) ≤ cash / burn)),
      if_neg (not_lt.mpr h18)]
    constructor <;> trivial

/-- C2 witness: the concrete scenario, landing in the concerning band. -/
theorem c2_runway_bands_witness :
    (calcRunway 120000 20000 ⟨2026, 1, 15⟩).status = "concerning" ∧
    (calcRunway 120000 20000 ⟨2026, 1, 15⟩).urgency = "medium" :=
  (c2_runway_bands 120000 20000 ⟨2026, 1, 15⟩ (by norm_num)).2.2.1
    (by norm_num) (by norm_num)

/-! ## Claim C1 -/

theorem signedRows_sum (df : List WRow) (p1 p2 : List String) (cat : String) (s : ℚ) :
    ((signedRows df p1 p2 cat s).map (·.2)).sum =
      s * (catTotal df cat p2 - catTotal df cat p1) := by
  have h1 : (signedRows df p1 p2 cat s).map (·.2) =
      (df.filter (fun r => r.category = cat)).map (fun r => s * movement p1 p2 r) := by
    simp [signedRows, List.map_map]
  rw [h1, sum_map_mul_const]
  have h2 : ((df.filter (fun r => r.category = cat)).map (movement p1 p2)).sum =
      catTotal df cat p2 - catTotal df cat p1 := by
    have := sum_map_sub (periodTotal p2) (periodTotal p1) (df.filter (fun r => r.category = cat))
    simpa [movement, catTotal] using this
  rw [h2]

/-- The assembled chart reconciles whenever the supplied pieces decompose the
total movement: exactly when the Other bar is emitted, and within the 0.01
suppression threshold when it is not. -/
theorem build_recon (p1v p2v other : ℚ) (drivers : List (String × ℚ)) (name : String)
    (h : p1v + (drivers.map (·.2)).sum + other = p2v) :
    |(buildWaterfallStructure p1v p2v drivers other name).reconDiff| ≤ 1/100 := by
  have hstart : (buildWaterfallStructure p1v p2v drivers other name).startSegment.value = p1v :=
    rfl
  have hend : (buildWaterfallStructure p1v p2v drivers other name).endSegment.value = p2v := rfl
  have hdrv : (buildWaterfallStructure p1v p2v drivers other name).driverSum =
      (drivers.map (·.2)).sum := by
    show ((drivers.map fun d =>
      (⟨truncate30 d.1, d.2, signColor d.2, "relative"⟩ : Segment)).map (·.value)).sum = _
    rw [List.map_map]
    rfl
  have hseg : (buildWaterfallStructure p1v p2v drivers other name).otherSegment =
      (if |other| > 1/100 then some ⟨"Other", other, signColor other, "relative"⟩ else none) :=
    rfl
  by_cases hoc : |other| > 1/100
  · have hov : (buildWaterfallStructure p1v p2v drivers other name).otherValue = other := by
      rw [WaterfallOut.otherValue, hseg, if_pos hoc]
      rfl
    have : (buildWaterfallStructure p1v p2v drivers other name).reconDiff = 0 := by
      rw [WaterfallOut.reconDiff, hstart, hend, hdrv, hov]
      linarith
    rw [this]
    norm_num
  · have hov : (buildWaterfallStructure p1v p2v drivers other name).otherValue = 0 := by
      rw [WaterfallOut.otherValue, hseg, if_neg hoc]
      rfl
    have hrd : (buildWaterfallStructure p1v p2v drivers other name).reconDiff = -other := by
      rw [WaterfallOut.reconDiff, hstart, hend, hdrv, hov]
      linarith
    rw [hrd, abs_neg]
    exact le_of_not_lt hoc

theorem waterfallCore_recon (filtered : List WRow) (p1 p2 : List String) (topN : ℕ) :
    |(waterfallCore filtered p1 p2 topN).reconDiff| ≤ 1/100 := by
  have hstart : (waterfallCore filtered p1 p2 topN).startSegment.value =
      (filtered.map (periodTotal p1)).sum := rfl
  have hend : (waterfallCore filtered p1 p2 topN).endSegment.value =
      (filtered.map (periodTotal p2)).sum := rfl
  have hdrv : (waterfallCore filtered p1 p2 topN).driverSum =
      ((selectTop (fun r => |movement p1 p2 r|) topN filtered).1.map (movement p1 p2)).sum := by
    show (((selectTop (fun r => |movement p1 p2 r|) topN filtered).1.map fun r =>
      (⟨truncate30 r.account, movement p1 p2 r, signColor (movement p1 p2 r), "relative"⟩ :
        Segment)).map (·.value)).sum = _
    rw [List.map_map]
    rfl
  have hsplit := selectTop_sum_split (fun r => |movement p1 p2 r|) (movement p1 p2) topN filtered
  have hmov : (filtered.map (movement p1 p2)).sum =
      (filtered.map (periodTotal p2)).sum - (filtered.map (periodTotal p1)).sum := by
    have := sum_map_sub (periodTotal p2) (periodTotal p1) filtered
    simpa [movement] using this
  set other := ((selectTop (fun r => |movement p1 p2 r|) topN filtered).2.map
    (movement p1 p2)).sum with hother
  have hseg : (waterfallCore filtered p1 p2 topN).otherSegment =
      (if |other| > 1/100 then some ⟨"Other", other, signColor other, "relative"⟩ else none) :=
    rfl
  by_cases hoc : |other| > 1/100
  · have hov : (waterfallCore filtered p1 p2 topN).otherValue = other := by
      rw [WaterfallOut.otherValue, hseg, if_pos hoc]
      rfl
    have : (waterfallCore filtered p1 p2 topN).reconDiff = 0 := by
      rw [WaterfallOut.reconDiff, hstart, hend, hdrv, hov]
      linarith
    rw [this]
    norm_num
  · have hov : (waterfallCore filtered p1 p2 topN).otherValue = 0 := by
      rw [WaterfallOut.otherValue, hseg, if_neg hoc]
      rfl
    have hrd : (waterfallCore filtered p1 p2 topN).reconDiff = -other := by
      rw [WaterfallOut.reconDiff, hstart, hend, hdrv, hov]
      linarith
    rw [hrd, abs_neg]
    exact le_of_not_lt hoc

theorem grossProfit_recon (df : List WRow) (p1 p2 : List String) (topN : ℕ) :
    |(grossProfitWaterfall df p1 p2 topN).reconDiff| ≤ 1/100 := by
  apply build_recon
  have hsplit := selectTop_sum_split (fun d => |d.2|) (·.2) topN
    (signedRows df p1 p2 "Revenue" 1 ++ signedRows df p1 p2 "Cost of Goods Sold" (-1))
  have hsum : ((signedRows df p1 p2 "Revenue" 1 ++
      signedRows df p1 p2 "Cost of Goods Sold" (-1)).map (·.2)).sum =
      (catTotal df "Revenue" p2 - catTotal df "Revenue" p1) -
        (catTotal df "Cost of Goods Sold" p2 - catTotal df "Cost of Goods Sold" p1) := by
    rw [List.map_append, List.sum_append, signedRows_sum, signedRows_sum]
    ring
  rw [hsum] at hsplit
  linarith

theorem operatingProfit_recon (df : List WRow) (p1 p2 : List String) (topN : ℕ) :
    |(operatingProfitWaterfall df p1 p2 topN).reconDiff| ≤ 1/100 := by
  apply build_recon
  have hsplit := selectTop_sum_split (fun d => |d.2|) (·.2) topN
    (signedRows df p1 p2 "Revenue" 1 ++ signedRows df p1 p2 "Cost of Goods Sold" (-1) ++
      signedRows df p1 p2 "Operating Expenses" (-1))
  have hsum : ((signedRows df p1 p2 "Revenue" 1 ++
      signedRows df p1 p2 "Cost of Goods Sold" (-1) ++
      signedRows df p1 p2 "Operating Expenses" (-1)).map (·.2)).sum =
      (catTotal df "Revenue" p2 - catTotal df "Revenue" p1) -
        (catTotal df "Cost of Goods Sold" p2 - catTotal df "Cost of Goods Sold" p1) -
        (catTotal df "Operating Expenses" p2 - catTotal df "Operating Expenses" p1) := by
    rw [List.map_append, List.sum_append, List.map_append, List.sum_append,
      signedRows_sum, signedRows_sum, signedRows_sum]
    ring
  rw [hsum] at hsplit
  linarith

theorem netProfit_recon (df : List WRow) (p1 p2 : List String) (topN : ℕ) :
    |(netProfitWaterfall df p1 p2 topN).reconDiff| ≤ 1/100 := by
  apply build_recon
  have hsplit := selectTop_sum_split (fun d => |d.2|) (·.2) topN
    (netProfitSigns.flatMap fun cs => signedRows df p1 p2 cs.1 cs.2)
  have hsum : ((netProfitSigns.flatMap fun cs => signedRows df p1 p2 cs.1 cs.2).map
      (·.2)).sum =
      (netProfitSigns.map fun cs => cs.2 * catTotal df cs.1 p2).sum -
        (netProfitSigns.map fun cs => cs.2 * catTotal df cs.1 p1).sum := by
    simp only [netProfitSigns, List.flatMap_cons, List.flatMap_nil, List.append_nil,
      List.map_append, List.sum_append, List.map_cons, List.sum_cons, List.map_nil,
      List.sum_nil, signedRows_sum]
    ring
  rw [hsum] at hsplit
  linarith

/-- C1, amended: for every waterfall result — raw category metric or any of
the three derived metrics, and every `top_n` — the start segment value plus
the driver segment values plus the Other value (0 when no Other segment is
emitted) equals the end segment value within the 0.01 Other-suppression
threshold: exactly when the Other segment is emitted, and otherwise off by
the suppressed residual, whose magnitude is at most 0.01 (which exceeds the
claimed 1e-6 tolerance). -/
theorem c1_waterfall_reconciliation (df : List WRow) (p1 p2 : List String) (topN : ℕ)
    (req : WReq) : |(runWaterfall df req p1 p2 topN).reconDiff| ≤ 1/100 := by
  cases req with
  | raw metric filter => exact waterfallCore_recon _ p1 p2 topN
  | grossProfit => exact grossProfit_recon df p1 p2 topN
  | operatingProfit => exact operatingProfit_recon df p1 p2 topN
  | netProfit => exact netProfit_recon df p1 p2 topN

/-- C1, counterexample: two line items whose movements are 10 and 0.005 with
`top_n = 1`: the residual 0.005 is below the 0.01 Other threshold, so no
Other segment is emitted and the bridge misses the end value by 0.005,
far beyond the claimed 1e-6 tolerance. -/
theorem c1_counterexample :
    ¬ (|(calculateWaterfall
        [⟨"A", "", "line_item", [("p1", some 0), ("p2", some 10)]⟩,
         ⟨"B", "", "line_item", [("p1", some 0), ("p2", some (1/200))]⟩]
        "m" ["p1"] ["p2"] 1 none).reconDiff| ≤ 1/1000000) := by decide

/-! ## Claim C4 -/

theorem maxByFirst_mem {α : Type} (k : α → ℚ) : ∀ (b : α) (xs : List α),
    maxByFirst k b xs ∈ b :: xs
  | b, [] => by simp [maxByFirst]
  | b, x :: xs => by
    simp only [maxByFirst]
    by_cases h : k x > k b
    · rw [if_pos h]
      exact List.mem_cons_of_mem b (maxByFirst_mem k x xs)
    · rw [if_neg h]
      rcases List.mem_cons.mp (maxByFirst_mem k b xs) with h1 | h1
      · rw [h1]
        exact List.mem_cons_self _ _
      · exact List.mem_cons_of_mem _ (List.mem_cons_of_mem _ h1)

theorem allMatches_cat {name : String} {t : String × String × ℚ}
    (h : t ∈ allMatches name) : t.1 ∈ taxonomyCategories := by
  simp only [allMatches] at h
  rcases List.mem_flatMap.mp h with ⟨ca, hca, ht⟩
  rcases List.mem_map.mp ht with ⟨acc, _, heq⟩
  have ht1 : t.1 = ca.1 := by rw [← heq]
  rw [ht1]
  exact List.mem_map.mpr ⟨ca, hca, rfl⟩

theorem fuzzy_cat (name : String) :
    (fuzzyMatch name).category ∈ taxonomyCategories ∨
      (fuzzyMatch name).category = "Uncategorized" := by
  cases hm : allMatches name with
  | nil =>
    right
    simp [fuzzyMatch, hm]
  | cons m ms =>
    have hmem : maxByFirst (fun t => t.2.2) m ms ∈ allMatches name := by
      rw [hm]
      exact maxByFirst_mem _ m ms
    have hcat := allMatches_cat hmem
    by_cases hth : (maxByFirst (fun t => t.2.2) m ms).2.2 ≥ 70
    · left
      simp only [fuzzyMatch, hm]
      rw [if_pos hth]
      exact hcat
    · right
      simp only [fuzzyMatch, hm]
      rw [if_neg hth]

theorem catStep_value_inv (d : Dict Mapping) (n : String)
    (hd : ∀ k v, dget k d = some v → v = fuzzyMatch k) :
    ∀ k v, dget k (catStep d n) = some v → v = fuzzyMatch k := by
  intro k v h
  simp only [catStep] at h
  cases hn : dget n d with
  | none =>
    rw [hn] at h
    dsimp only at h
    by_cases hkn : k = n
    · subst hkn
      rw [dget_dinsert_self] at h
      injection h with h
      exact h.symm
    · rw [dget_dinsert_ne hkn] at h
      exact hd k v h
  | some e =>
    rw [hn] at h
    dsimp only at h
    by_cases hc : e.confidence < 7/10
    · rw [if_pos hc] at h
      by_cases hf : (fuzzyMatch n).confidence > e.confidence
      · rw [if_pos hf] at h
        by_cases hkn : k = n
        · subst hkn
          rw [dget_dinsert_self] at h
          injection h with h
          exact h.symm
        · rw [dget_dinsert_ne hkn] at h
          exact hd k v h
      · rw [if_neg hf] at h
        exact hd k v h
    · rw [if_neg hc] at h
      exact hd k v h

theorem catFold_value_inv : ∀ (names : List String) (d : Dict Mapping),
    (∀ k v, dget k d = some v → v = fuzzyMatch k) →
    ∀ k v, dget k (names.foldl catStep d) = some v → v = fuzzyMatch k
  | [], _, hd => hd
  | n :: rest, d, hd => by
    simp only [List.foldl_cons]
    exact catFold_value_inv rest (catStep d n) (catStep_value_inv d n hd)

theorem catStep_presence_self (d : Dict Mapping) (n : String) :
    (dget n (catStep d n)).isSome := by
  simp only [catStep]
  cases hn : dget n d with
  | none =>
    dsimp only
    rw [dget_dinsert_self]
    rfl
  | some e =>
    dsimp only
    by_cases hc : e.confidence < 7/10
    · rw [if_pos hc]
      by_cases hf : (fuzzyMatch n).confidence > e.confidence
      · rw [if_pos hf, dget_dinsert_self]
        rfl
      · rw [if_neg hf, hn]
        rfl
    · rw [if_neg hc, hn]
      rfl

theorem catStep_presence_mono (d : Dict Mapping) (n k : String)
    (h : (dget k d).isSome) : (dget k (catStep d n)).isSome := by
  simp only [catStep]
  have hins : (dget k (dinsert n (fuzzyMatch n) d)).isSome := by
    by_cases hkn : k = n
    · subst hkn
      rw [dget_dinsert_self]
      rfl
    · rw [dget_dinsert_ne hkn]
      exact h
  cases hn : dget n d with
  | none => exact hins
  | some e =>
    dsimp only
    by_cases hc : e.confidence < 7/10
    · rw [if_pos hc]
      by_cases hf : (fuzzyMatch n).confidence > e.confidence
      · rw [if_pos hf]
        exact hins
      · rw [if_neg hf]
        exact h
    · rw [if_neg hc]
      exact h

theorem catFold_presence_mono : ∀ (names : List String) (d : Dict Mapping) (k : String),
    (dget k d).isSome → (dget k (names.foldl catStep d)).isSome
  | [], _, _, h => h
  | n :: rest, d, k, h => by
    simp only [List.foldl_cons]
    exact catFold_presence_mono rest (catStep d n) k (catStep_presence_mono d n k h)

theorem catFold_presence : ∀ (names : List String) (d : Dict Mapping) (n : String),
    n ∈ names → (dget n (names.foldl catStep d)).isSome
  | [], _, _, h => by simp at h
  | n' :: rest, d, n, h => by
    simp only [List.foldl_cons]
    rcases List.mem_cons.mp h with h1 | h1
    · subst h1
      exact catFold_presence_mono rest (catStep d n) n (catStep_presence_self d n)
    · exact catFold_presence rest (catStep d n') n h1

theorem categorize_none_eq (names : List String) (n : String) (h : n ∈ names) :
    dget n (categorizeAccounts none names) = some (fuzzyMatch n) := by
  have hp : (dget n (names.foldl catStep (aiResults none))).isSome :=
    catFold_presence names (aiResults none) n h
  obtain ⟨v, hv⟩ := Option.isSome_iff_exists.mp hp
  have hval := catFold_value_inv names (aiResults none)
    (by intro k v h'; simp [aiResults, dget] at h') n v hv
  show dget n (names.foldl catStep (aiResults none)) = _
  rw [hv, hval]

theorem mem_uniqFirstAux (a : String) : ∀ (l seen : List String),
    a ∈ l → a ∈ seen ∨ a ∈ uniqFirstAux seen l
  | [], _, h => by simp at h
  | x :: xs, seen, h => by
    simp only [uniqFirstAux]
    by_cases hx : x ∈ seen
    · rw [if_pos hx]
      rcases List.mem_cons.mp h with h1 | h1
      · exact Or.inl (h1 ▸ hx)
      · exact mem_uniqFirstAux a xs seen h1
    · rw [if_neg hx]
      rcases List.mem_cons.mp h with h1 | h1
      · exact Or.inr (h1 ▸ List.mem_cons_self _ _)
      · rcases mem_uniqFirstAux a xs (x :: seen) h1 with h2 | h2
        · rcases List.mem_cons.mp h2 with h3 | h3
          · exact Or.inr (h3 ▸ List.mem_cons_self _ _)
          · exact Or.inl h3
        · exact Or.inr (List.mem_cons_of_mem _ h2)

theorem mem_uniqFirst (a : String) (l : List String) (h : a ∈ l) : a ∈ uniqFirst l := by
  rcases mem_uniqFirstAux a l [] h with h1 | h1
  · simp at h1
  · exact h1

/-- C4, amended: along the fuzzy path (no external response) the category of
every row with a non-null account cell is a member of the six-category
taxonomy or ``Uncategorized``; a row whose account cell is null has no
mapping entry and receives the default ``Unknown`` — not a taxonomy member.
(With an external response, the response's category string is passed through
unchecked, see the counterexample.) -/
theorem c4_fuzzy_taxonomy (rows : List AccountRow) (c : CatRow)
    (hc : c ∈ batchCategorize none rows) :
    (c.account.isSome → c.category ∈ taxonomyCategories ∨ c.category = "Uncategorized") ∧
    (c.account = none → c.category = "Unknown") := by
  simp only [batchCategorize] at hc
  rcases List.mem_map.mp hc with ⟨r, hr, heq⟩
  cases ha : r.account with
  | none =>
    constructor
    · intro hsome
      rw [← heq] at hsome
      simp [ha] at hsome
    · intro _
      rw [← heq]
      simp [ha]
  | some a =>
    have hmem_names : a ∈ uniqFirst (rows.filterMap (·.account)) :=
      mem_uniqFirst a _ (List.mem_filterMap.mpr ⟨r, hr, ha⟩)
    have hdget := categorize_none_eq _ a hmem_names
    constructor
    · intro _
      have hcat : c.category = (fuzzyMatch a).category := by
        rw [← heq]
        simp [ha, hdget]
      rw [hcat]
      exact fuzzy_cat a
    · intro hnone
      rw [← heq] at hnone
      simp [ha] at hnone

set_option maxRecDepth 100000 in
/-- C4 witness: a single non-null account row, resolved by fuzzy matching. -/
theorem c4_fuzzy_taxonomy_witness :
    ((batchCategorize none [⟨some "x"⟩]).headD
        ⟨none, "", "", false, 0, "", false⟩).category ∈ taxonomyCategories ∨
      ((batchCategorize none [⟨some "x"⟩]).headD
        ⟨none, "", "", false, 0, "", false⟩).category = "Uncategorized" := by
  have h := c4_fuzzy_taxonomy [⟨some "x"⟩]
    ((batchCategorize none [⟨some "x"⟩]).headD ⟨none, "", "", false, 0, "", false⟩)
    (by decide)
  exact h.1 (by decide)

set_option maxRecDepth 100000 in
/-- C4, counterexample: an external response may carry any category string
(here ``Banana``) with confidence at least 0.7, and a null account cell maps
to ``Unknown`` — both values escape the claimed taxonomy-or-Uncategorized
range. -/
theorem c4_counterexample :
    ((batchCategorize (some [("Foo", ⟨some "Banana", some "", some false, some (19/20)⟩)])
        [⟨some "Foo"⟩]).map (·.category) = ["Banana"]) ∧
    "Banana" ∉ taxonomyCategories ∧ "Banana" ≠ "Uncategorized" ∧
    ((batchCategorize none [⟨none⟩]).map (·.category) = ["Unknown"]) ∧
    "Unknown" ∉ taxonomyCategories ∧ "Unknown" ≠ "Uncategorized" := by
  refine ⟨by decide, by decide, by decide, by decide, by decide, by decide⟩

/-! ## Claim C5 -/

theorem calcRunway_months_eq (c b : ℚ) (t1 t2 : Date) :
    (calcRunway c b t1).months_remaining = (calcRunway c b t2).months_remaining := by
  by_cases hb : b ≤ 0 <;> simp [calcRunway, hb]

theorem calcRunway_scrub (c b : ℚ) (t1 t2 : Date) :
    ({ calcRunway c b t1 with zero_cash_date := none } : RunwayMetrics) =
      { calcRunway c b t2 with zero_cash_date := none } := by
  by_cases hb : b ≤ 0 <;> simp [calcRunway, hb]

theorem genInsights_months_congr (rw1 rw2 : RunwayMetrics)
    (h : rw1.months_remaining = rw2.months_remaining) (b : Option BurnMetrics)
    (g : Option GrowthMetrics) (e : Option Efficiency) :
    genInsights (some rw1) b g e = genInsights (some rw2) b g e := by
  simp only [genInsights]
  rw [h]

/-- C5, amended: the pipeline output is a pure function of the input table,
value columns, cash balance and the single `datetime.now()` reading; two
runs over identical input agree on every field except the runway record's
`zero_cash_date`, which encodes the current date and differs between runs
made on different days. -/
theorem c5_determinism_modulo_clock (df : List MRow) (valueCols : List String)
    (cash : Option ℚ) (t1 t2 : Date) :
    scrubDate (calculateAllMetrics df valueCols cash t1) =
      scrubDate (calculateAllMetrics df valueCols cash t2) := by
  simp only [calculateAllMetrics]
  cases cash with
  | none => rfl
  | some c =>
    cases hb : calculateBurnRate (calculateAggregates df valueCols) with
    | none => rfl
    | some b =>
      by_cases hnb : b.net_burn_avg ≠ 0
      · simp only [if_pos hnb, scrubDate, Option.map_some']
        simp only [MetricsResult.mk.injEq]
        refine ⟨trivial, trivial, ?_, trivial, trivial, trivial, ?_⟩
        · exact congrArg some (calcRunway_scrub c b.net_burn_avg t1 t2)
        · exact genInsights_months_congr _ _ (calcRunway_months_eq c b.net_burn_avg t1 t2)
            _ _ _
      · simp only [if_neg hnb]

/-- C5, counterexample: the same input evaluated under two clock readings
one month apart yields different runway records — `zero_cash_date` reflects
the wall clock, so the output is not byte-for-byte reproducible from the
input alone. -/
theorem c5_counterexample :
    (calculateAllMetrics [⟨"Rent", [("2024-01", some 1000)]⟩] ["2024-01"]
        (some 12000) ⟨2026, 1, 15⟩).runway ≠
      (calculateAllMetrics [⟨"Rent", [("2024-01", some 1000)]⟩] ["2024-01"]
        (some 12000) ⟨2026, 2, 15⟩).runway := by decide

/-! ## Claim C6 -/

theorem insertSorted_front (x : String) (l : List String)
    (h : ∀ y ∈ l, strLe x y = true) : insertSorted x l = x :: l := by
  cases l with
  | nil => rfl
  | cons y ys => simp [insertSorted, h y (by simp)]

theorem sortStrings_sorted_eq (l : List String)
    (h : l.Pairwise (fun a b => strLe a b = true)) : sortStrings l = l := by
  induction l with
  | nil => rfl
  | cons x xs ih =>
    have hp := List.pairwise_cons.mp h
    show insertSorted x (sortStrings xs) = x :: xs
    rw [ih hp.2, insertSorted_front x xs hp.1]

theorem aggFold_rev (df : List MRow) : ∀ (cols : List String) (acc : Aggregates),
    (cols.foldl (aggFoldStep df) acc).revenue_by_period =
      cols.foldl (fun d p => dinsert p (aggPair df p).1 d) acc.revenue_by_period
  | [], _ => rfl
  | p :: rest, acc => by
    simp only [List.foldl_cons]
    exact aggFold_rev df rest (aggFoldStep df acc p)

theorem aggFold_exp (df : List MRow) : ∀ (cols : List String) (acc : Aggregates),
    (cols.foldl (aggFoldStep df) acc).expenses_by_period =
      cols.foldl (fun d p => dinsert p (aggPair df p).2 d) acc.expenses_by_period
  | [], _ => rfl
  | p :: rest, acc => by
    simp only [List.foldl_cons]
    exact aggFold_exp df rest (aggFoldStep df acc p)

theorem aggFold_periods (df : List MRow) : ∀ (cols : List String) (acc : Aggregates),
    (cols.foldl (aggFoldStep df) acc).periods = acc.periods
  | [], _ => rfl
  | p :: rest, acc => by
    simp only [List.foldl_cons]
    exact aggFold_periods df rest (aggFoldStep df acc p)

theorem map_fst_pair_map {β : Type} (g : String → β) (l : List String) :
    ((l.map fun p => (p, g p)).map fun x => x.1) = l := by
  induction l with
  | nil => rfl
  | cons x xs ih => simp [ih]

theorem foldl_dinsert_fn {β : Type} (f : String → β) (cols : List String)
    (hn : cols.Nodup) :
    cols.foldl (fun d p => dinsert p (f p) d) [] = cols.map (fun p => (p, f p)) := by
  have h1 : cols.foldl (fun d p => dinsert p (f p) d) [] =
      (cols.map (fun p => (p, f p))).foldl (fun d kv => dinsert kv.1 kv.2 d) [] := by
    rw [List.foldl_map]
  rw [h1, foldl_dinsert_append]
  · simp
  · intro kv _
    simp [dget]
  · rw [map_fst_pair_map]
    exact hn

theorem zipWith_map_same {α : Type} (f g : α → ℚ) (op : ℚ → ℚ → ℚ) (l : List α) :
    List.zipWith op (l.map f) (l.map g) = l.map (fun x => op (f x) (g x)) := by
  induction l with
  | nil => rfl
  | cons x xs ih => simp [ih]

theorem zip_map_pair {α β γ : Type} (f : α → β) (g : α → γ) (l : List α) :
    (l.map f).zip (l.map g) = l.map (fun x => (f x, g x)) := by
  induction l with
  | nil => rfl
  | cons x xs ih => simp [ih]

theorem momList_map (f : String → ℚ) : ∀ (l : List String),
    momList (l.map f) = (l.zip (l.drop 1)).map (fun pq =>
      if f pq.1 ≠ 0 then (f pq.2 - f pq.1) / |f pq.1| * 100 else 0)
  | [] => rfl
  | [_] => rfl
  | x :: y :: rest => by
    show (if f x ≠ 0 then (f y - f x) / |f x| * 100 else 0) :: momList ((y :: rest).map f) = _
    rw [momList_map f (y :: rest)]
    rfl

theorem calculateAggregates_sorted (df : List MRow) (cols : List String)
    (hne : cols ≠ []) (hs : cols.Pairwise (fun a b => strLe a b = true))
    (hn : cols.Nodup) :
    calculateAggregates df cols =
      ⟨cols.map (fun p => (p, (aggPair df p).1)),
       cols.map (fun p => (p, (aggPair df p).2)),
       (calculateAggregates df cols).net_income_by_period,
       cols⟩ := by
  have hce : cols.isEmpty = false := by
    cases cols
    · exact absurd rfl hne
    · rfl
  have hstart : calculateAggregates df cols =
      cols.foldl (aggFoldStep df) ⟨[], [], [], sortStrings cols⟩ := by
    rw [calculateAggregates, hce]
    simp
  rcases hagg : calculateAggregates df cols with ⟨rev, exp, net, per⟩
  have hrev : rev = cols.map (fun p => (p, (aggPair df p).1)) := by
    have := aggFold_rev df cols ⟨[], [], [], sortStrings cols⟩
    rw [← hstart, hagg] at this
    simpa [foldl_dinsert_fn (fun p => (aggPair df p).1) cols hn] using this
  have hexp : exp = cols.map (fun p => (p, (aggPair df p).2)) := by
    have := aggFold_exp df cols ⟨[], [], [], sortStrings cols⟩
    rw [← hstart, hagg] at this
    simpa [foldl_dinsert_fn (fun p => (aggPair df p).2) cols hn] using this
  have hper : per = cols := by
    have := aggFold_periods df cols ⟨[], [], [], sortStrings cols⟩
    rw [← hstart, hagg] at this
    simpa [sortStrings_sorted_eq cols hs] using this
  rw [hagg] at *
  simp only [hrev, hexp, hper]

theorem map_snd_pair_map {β : Type} (g : String → β) (l : List String) :
    ((l.map fun p => (p, g p)).map fun x => x.2) = l.map g := by
  induction l with
  | nil => rfl
  | cons x xs ih => simp [ih]

theorem zip_map_self {β : Type} (g : String → β) (l : List String) :
    l.zip (l.map g) = l.map (fun p => (p, g p)) := by
  induction l with
  | nil => rfl
  | cons x xs ih => simp [ih]

theorem map_snd_zip_le {α β : Type} : ∀ (l1 : List α) (l2 : List β),
    l2.length ≤ l1.length → (l1.zip l2).map (fun pq => pq.2) = l2
  | _, [], _ => by simp
  | [], _ :: _, h => by simp at h
  | a :: as, b :: bs, h => by
    simp only [List.zip_cons_cons, List.map_cons]
    rw [map_snd_zip_le as bs (by simpa using h)]

/-- C6, amended: the per-period maps pair each key with that key's own value
exactly when the input value columns are already in sorted order (and
distinct): then `net_burn_by_period` maps every period to its expenses minus
revenue, and `mom_growth_by_period` maps every non-first period to the
growth computed from its predecessor. For unsorted input orders the zip of
sorted keys against input-ordered values misaligns (see the
counterexample). -/
theorem c6_sorted_alignment (df : List MRow) (cols : List String)
    (hs : cols.Pairwise (fun a b => strLe a b = true)) (hn : cols.Nodup) :
    ((calculateBurnRate (calculateAggregates df cols)).map (·.net_burn_by_period)) =
      ((calculateBurnRate (calculateAggregates df cols)).map (fun _ =>
        cols.map (fun p => (p, (aggPair df p).2 - (aggPair df p).1)))) ∧
    ((calculateGrowthMetrics (calculateAggregates df cols)).map (·.mom_growth_by_period)) =
      ((calculateGrowthMetrics (calculateAggregates df cols)).map (fun _ =>
        (cols.zip (cols.drop 1)).map (fun pq =>
          (pq.2, if (aggPair df pq.1).1 ≠ 0 then
            ((aggPair df pq.2).1 - (aggPair df pq.1).1) / |(aggPair df pq.1).1| * 100
          else 0)))) := by
  by_cases hne : cols = []
  · subst hne
    constructor <;> rfl
  · have hagg := calculateAggregates_sorted df cols hne hs hn
    constructor
    · cases hB : calculateBurnRate (calculateAggregates df cols) with
      | none => rfl
      | some b =>
        simp only [Option.map_some']
        congr 1
        rw [hagg] at hB
        simp only [calculateBurnRate] at hB
        by_cases hemp : ((cols.map fun p => (p, (aggPair df p).2)).map (fun x => x.2)).isEmpty
        · rw [if_pos hemp] at hB
          exact absurd hB (by simp)
        · rw [if_neg hemp] at hB
          have hb := (Option.some.injEq _ _).mp hB
          rw [← hb]
          show dzip cols (List.zipWith (· - ·)
            ((cols.map fun p => (p, (aggPair df p).2)).map (fun x => x.2))
            ((cols.map fun p => (p, (aggPair df p).1)).map (fun x => x.2))) = _
          rw [map_snd_pair_map, map_snd_pair_map, zipWith_map_same]
          rw [dzip_eq_zip cols _ hn (by simp)]
          exact zip_map_self _ cols
    · cases hG : calculateGrowthMetrics (calculateAggregates df cols) with
      | none => rfl
      | some g =>
        simp only [Option.map_some']
        congr 1
        rw [hagg] at hG
        simp only [calculateGrowthMetrics] at hG
        by_cases hlen : ((cols.map fun p => (p, (aggPair df p).1)).map (fun x => x.2)).length < 2
        · rw [if_pos hlen] at hG
          exact absurd hG (by simp)
        · rw [if_neg hlen] at hG
          have hg := (Option.some.injEq _ _).mp hG
          rw [← hg]
          show dzip (cols.drop 1)
            (momList ((cols.map fun p => (p, (aggPair df p).1)).map (fun x => x.2))) = _
          rw [map_snd_pair_map, momList_map]
          rw [dzip_eq_zip _ _ (hn.sublist (List.drop_sublist 1 cols))
            (by simp [List.length_zip] <;> omega)]
          have hdrop := (map_snd_zip_le cols (cols.drop 1)
            (by cases cols <;> simp)).symm
          nth_rewrite 1 [hdrop]
          exact zip_map_pair (fun pq : String × String => pq.2)
            (fun pq => if (aggPair df pq.1).1 ≠ 0 then
              ((aggPair df pq.2).1 - (aggPair df pq.1).1) / |(aggPair df pq.1).1| * 100
            else 0) (cols.zip (cols.drop 1))

/-- C6 witness: two sorted, distinct period columns. -/
theorem c6_sorted_alignment_witness :
    ((calculateBurnRate (calculateAggregates
        [⟨"Rent", [("a", some 1), ("b", some 3)]⟩] ["a", "b"])).map
          (·.net_burn_by_period)) =
      ((calculateBurnRate (calculateAggregates
        [⟨"Rent", [("a", some 1), ("b", some 3)]⟩] ["a", "b"])).map (fun _ =>
          ["a", "b"].map (fun p =>
            (p, (aggPair [⟨"Rent", [("a", some 1), ("b", some 3)]⟩] p).2 -
              (aggPair [⟨"Rent", [("a", some 1), ("b", some 3)]⟩] p).1)))) :=
  (c6_sorted_alignment [⟨"Rent", [("a", some 1), ("b", some 3)]⟩] ["a", "b"]
    (by decide) (by decide)).1

/-- C6, counterexample: with the value columns supplied in reverse
chronological order, `net_burn_by_period` pairs the sorted key "2024-01"
with the net burn computed for "2024-02" (100 instead of its own 200). -/
theorem c6_counterexample :
    ((calculateBurnRate (calculateAggregates
        [⟨"Rent", [("2024-02", some 100), ("2024-01", some 200)]⟩]
        ["2024-02", "2024-01"])).map (fun b => dget "2024-01" b.net_burn_by_period)) =
      some (some 100) ∧
    (aggPair [⟨"Rent", [("2024-02", some 100), ("2024-01", some 200)]⟩] "2024-01").2 -
      (aggPair [⟨"Rent", [("2024-02", some 100), ("2024-01", some 200)]⟩] "2024-01").1 = 200 ∧
    (100 : ℚ) ≠ 200 := by
  refine ⟨by decide, by decide, by decide⟩

end Valta
